import Mathlib

/-!
Verification of the order admission, approval, cancellation and stock-ledger
logic of the LaCoupole backend (src/routes/orderRoutes.js).

The handlers are embedded as pure functions over an explicit database state
`Db`.  SQL decimals are modelled as `Rat`, SQL rows as structures, each table
as a `List` of rows, and a MySQL transaction as a function that either returns
the updated state (commit) or the untouched original state together with an
error (rollback).  JavaScript `Map` objects (insertion ordered, first-match
lookup) are modelled as association lists with the operations `usageGet` /
`usageAdd` below.  SHA-256 fingerprints and the duplicate-submission hash are
modelled injectively: the hashed payload itself stands for its digest.
-/

namespace LaCoupole

/-- Row of `menu_items` as read by the order routes. -/
structure MenuItemRow where
  id : Nat
  availability : Bool
  regular_price : Rat
  sale_price : Option Rat
  deriving Repr, DecidableEq

/-- Row of `menu_item_supplements`. -/
structure MenuItemSupplementRow where
  menu_item_id : Nat
  supplement_id : Nat
  additional_price : Rat
  deriving Repr, DecidableEq

/-- Row of `breakfasts`. -/
structure BreakfastRow where
  id : Nat
  availability : Bool
  price : Rat
  deriving Repr, DecidableEq

/-- Row of `breakfast_option_groups`; `breakfast_id = none` marks a reusable
group attached through `breakfast_option_group_mappings`. -/
structure OptionGroupRow where
  id : Nat
  breakfast_id : Option Nat
  is_required : Bool
  title : Option String
  deriving Repr, DecidableEq

/-- Row of `breakfast_options`. -/
structure BreakfastOptionRow where
  id : Nat
  group_id : Nat
  breakfast_id : Option Nat
  additional_price : Rat
  deriving Repr, DecidableEq

/-- Row of `breakfast_option_group_mappings`. -/
structure GroupMappingRow where
  breakfast_id : Nat
  option_group_id : Nat
  deriving Repr, DecidableEq

/-- Row of any of the four ingredient-consumption mapping tables
(`menu_item_ingredients`, `supplement_ingredients`, `breakfast_ingredients`,
`breakfast_option_ingredients`): `owner_id` is the menu item / supplement /
breakfast / option id, `quantity` the per-unit consumption. -/
structure IngredientMapRow where
  owner_id : Nat
  ingredient_id : Nat
  quantity : Rat
  deriving Repr, DecidableEq

/-- Row of `promotions` (dates as integer timestamps). -/
structure PromotionRow where
  id : Nat
  discount_percentage : Rat
  item_id : Option Nat
  active : Bool
  start_date : Int
  end_date : Int
  deriving Repr, DecidableEq

/-- Row of `tables`. -/
structure TableRow where
  id : Nat
  table_number : Nat
  status : String
  deriving Repr, DecidableEq

/-- Row of `ingredients`. -/
structure IngredientRow where
  id : Nat
  name : String
  quantity_in_stock : Rat
  deriving Repr, DecidableEq

/-- Row of `stock_transactions`. -/
structure StockTransactionRow where
  ingredient_id : Nat
  quantity : Rat
  transaction_type : String
  order_id : Option Nat
  reason : String
  deriving Repr, DecidableEq

/-- Row of `orders` (`approved` is the TINYINT flag read as a boolean). -/
structure OrderRow where
  id : Nat
  total_price : Rat
  order_type : String
  delivery_address : Option String
  promotion_id : Option Nat
  table_id : Option Nat
  session_id : String
  notes : Option String
  status : String
  approved : Bool
  deriving Repr, DecidableEq

/-- Row of `order_items`. -/
structure OrderItemRow where
  id : Nat
  order_id : Nat
  item_id : Option Nat
  breakfast_id : Option Nat
  quantity : Nat
  unit_price : Rat
  supplement_id : Option Nat
  deriving Repr, DecidableEq

/-- Row of `breakfast_order_options`. -/
structure BreakfastOrderOptionRow where
  order_item_id : Nat
  breakfast_option_id : Nat
  deriving Repr, DecidableEq

/-- A rate-limit fingerprint.  The code stores `sha256(deviceId)` and
`sha256(ip|userAgent)`; the hash is modelled injectively by keeping the
hashed payload in a constructor. -/
inductive Fingerprint where
  | device (deviceId : String)
  | network (ip userAgent : String)
  deriving Repr, DecidableEq

/-- Row of `device_order_limits`. -/
structure DeviceOrderLimitRow where
  fingerprint : Fingerprint
  order_timestamp : Int
  deriving Repr, DecidableEq

/-- Row of `notifications` (the human-readable message text is not modelled;
no verified property depends on it). -/
structure NotificationRow where
  type : String
  reference_id : Nat
  deriving Repr, DecidableEq

/-- The database state visible to the order routes, plus the auto-increment
counters for `orders.id` and `order_items.id`. -/
structure Db where
  menu_items : List MenuItemRow
  menu_item_supplements : List MenuItemSupplementRow
  menu_item_ingredients : List IngredientMapRow
  supplement_ingredients : List IngredientMapRow
  breakfasts : List BreakfastRow
  breakfast_ingredients : List IngredientMapRow
  breakfast_option_groups : List OptionGroupRow
  breakfast_options : List BreakfastOptionRow
  breakfast_option_group_mappings : List GroupMappingRow
  breakfast_option_ingredients : List IngredientMapRow
  promotions : List PromotionRow
  tables : List TableRow
  ingredients : List IngredientRow
  stock_transactions : List StockTransactionRow
  orders : List OrderRow
  order_items : List OrderItemRow
  breakfast_order_options : List BreakfastOrderOptionRow
  device_order_limits : List DeviceOrderLimitRow
  notifications : List NotificationRow
  nextOrderId : Nat
  nextOrderItemId : Nat
  deriving Repr, DecidableEq

/-- A JavaScript `Map` from ingredient id to accumulated quantity:
insertion-ordered association list. -/
abbrev UsageMap := List (Nat × Rat)

/-- `map.get(k) || 0`: value of the first entry with key `k`, `0` if absent. -/
def usageGet : UsageMap → Nat → Rat
  | [], _ => 0
  | p :: rest, k => if p.1 = k then p.2 else usageGet rest k

/-- `map.set(k, (map.get(k) || 0) + v)`: bump the first entry with key `k`,
or append a fresh entry at the end (JS `Map` insertion order). -/
def usageAdd : UsageMap → Nat → Rat → UsageMap
  | [], k, v => [(k, v)]
  | p :: rest, k, v =>
    if p.1 = k then (p.1, p.2 + v) :: rest else p :: usageAdd rest k v

/-- `SELECT ... FROM <mapping table> WHERE <owner column> = ?`. -/
def mappingsFor (rows : List IngredientMapRow) (owner : Nat) : List IngredientMapRow :=
  rows.filter (fun r => r.owner_id = owner)

/-- One `for (const ing of rows)` loop:
`map.set(id, (map.get(id) || 0) + parseFloat(q) * mult)`; menu item /
supplement / breakfast rows use `mult = quantity`, option rows `mult = 1`. -/
def addMappings (m : UsageMap) (rows : List IngredientMapRow) (mult : Rat) : UsageMap :=
  rows.foldl (fun acc r => usageAdd acc r.ingredient_id (r.quantity * mult)) m

/-- Per-unit consumption of ingredient `g` by owner `owner` in a mapping
table (sum over its rows, in case the table holds several). -/
def mapTotal (rows : List IngredientMapRow) (owner g : Nat) : Rat :=
  (((mappingsFor rows owner).filter (fun r => r.ingredient_id = g)).map
    (fun r => r.quantity)).sum

/-- One `if (item_id) { ... }` style block of the stock algorithm: when the
optional owner column is set, fold its mapping rows into the usage map. -/
def stepOwner (m : UsageMap) (table : List IngredientMapRow) (x : Option Nat)
    (mult : Rat) : UsageMap :=
  match x with
  | some i => addMappings m (mappingsFor table i) mult
  | none => m

/-- The body of the `for (const item of orderItems)` loop in the stock
deduction/restoration algorithm: menu-item, supplement and breakfast
ingredient mappings, each multiplied by the order line's quantity. -/
def usageOfItem (db : Db) (m : UsageMap) (it : OrderItemRow) : UsageMap :=
  stepOwner
    (stepOwner
      (stepOwner m db.menu_item_ingredients it.item_id it.quantity)
      db.supplement_ingredients it.supplement_id it.quantity)
    db.breakfast_ingredients it.breakfast_id it.quantity

/-- Ingredient-usage map of `POST /orders/:id/approve`: order items first
(menu item, supplement, breakfast blocks), then every selected breakfast
option once, not multiplied by quantity. -/
def computeIngredientUsageApprove (db : Db) (orderItems : List OrderItemRow)
    (opts : List BreakfastOrderOptionRow) : UsageMap :=
  let m := orderItems.foldl (usageOfItem db) []
  opts.foldl
    (fun acc o =>
      addMappings acc (mappingsFor db.breakfast_option_ingredients o.breakfast_option_id) 1) m

/-- Ingredient-usage map of the auto-approval block of `POST /orders`
(textually the same algorithm as the approve endpoint). -/
def computeIngredientUsageAutoApprove (db : Db) (orderItems : List OrderItemRow)
    (opts : List BreakfastOrderOptionRow) : UsageMap :=
  let m := orderItems.foldl (usageOfItem db) []
  opts.foldl
    (fun acc o =>
      addMappings acc (mappingsFor db.breakfast_option_ingredients o.breakfast_option_id) 1) m

/-- Ingredient-usage map recomputed by `POST /orders/:id/cancel` before
restoration (textually the same algorithm as the approve endpoint). -/
def computeIngredientUsageCancel (db : Db) (orderItems : List OrderItemRow)
    (opts : List BreakfastOrderOptionRow) : UsageMap :=
  let m := orderItems.foldl (usageOfItem db) []
  opts.foldl
    (fun acc o =>
      addMappings acc (mappingsFor db.breakfast_option_ingredients o.breakfast_option_id) 1) m

/-- Total requirement of ingredient `g` contributed by one order line:
per-unit quantities of its menu item, primary supplement and breakfast
mappings, multiplied by the line's quantity. -/
def itemRequires (db : Db) (g : Nat) (it : OrderItemRow) : Rat :=
  ((match it.item_id with
    | some i => mapTotal db.menu_item_ingredients i g
    | none => 0) +
   (match it.supplement_id with
    | some s => mapTotal db.supplement_ingredients s g
    | none => 0) +
   (match it.breakfast_id with
    | some b => mapTotal db.breakfast_ingredients b g
    | none => 0)) * it.quantity

/-- The error responses of the order routes (only the routes modelled here). -/
inductive OrderError where
  | forbidden
  | orderNotFound
  | invalidApprovedValue
  | invalidDevice
  | rateLimited
  | invalidSession
  | duplicateOrder
  | emptyItems
  | invalidOrderType
  | tableRequired
  | addressRequired
  | invalidItemId (id : Nat)
  | invalidQuantity (id : Nat)
  | invalidUnitPrice (id : Nat)
  | itemUnavailable (id : Nat)
  | invalidSupplement (item : Nat) (provided found : List Nat)
  | priceMismatch (item : Nat) (expected provided : Rat)
  | invalidBreakfastId (id : Nat)
  | invalidBreakfastQuantity (id : Nat)
  | invalidBreakfastUnitPrice (id : Nat)
  | breakfastUnavailable (id : Nat)
  | invalidOption (breakfast : Nat) (provided found : List Nat)
  | missingRequiredGroup (breakfast : Nat) (titles : List String)
  | breakfastPriceBelow (breakfast : Nat) (expected provided : Rat)
  | tableNotFound
  | tableReserved
  | totalMismatch (expected provided : Rat)
  | ingredientNotFound (id : Nat)
  | insufficientStock (name : String) (required available : Rat)
  | restoreIngredientNotFound (id : Nat)
  | alreadyApproved
  | alreadyDeducted
  | alreadyCancelled
  | alreadyRestored
  deriving Repr, DecidableEq

/-- `SELECT ... FROM orders WHERE id = ?`. -/
def findOrder (db : Db) (oid : Nat) : Option OrderRow :=
  db.orders.find? (fun o => o.id = oid)

/-- `SELECT ... FROM ingredients WHERE id = ?`. -/
def lookupIngredient (db : Db) (g : Nat) : Option IngredientRow :=
  db.ingredients.find? (fun r => r.id = g)

/-- `UPDATE ingredients SET quantity_in_stock = ? WHERE id = ?`. -/
def setIngredientQty (db : Db) (g : Nat) (q : Rat) : Db :=
  { db with ingredients :=
      db.ingredients.map (fun r =>
        if r.id = g then { r with quantity_in_stock := q } else r) }

/-- `INSERT INTO stock_transactions ...`. -/
def addStockTransaction (db : Db) (t : StockTransactionRow) : Db :=
  { db with stock_transactions := db.stock_transactions ++ [t] }

/-- `UPDATE orders SET approved = ?, status = ? WHERE id = ?`. -/
def setOrderApproved (db : Db) (oid : Nat) (app : Bool) (status : String) : Db :=
  { db with orders :=
      db.orders.map (fun o =>
        if o.id = oid then { o with approved := app, status := status } else o) }

/-- `SELECT ... FROM order_items WHERE order_id = ?`. -/
def orderItemsOf (db : Db) (oid : Nat) : List OrderItemRow :=
  db.order_items.filter (fun r => r.order_id = oid)

/-- `SELECT boo.breakfast_option_id FROM breakfast_order_options boo JOIN
order_items oi ON boo.order_item_id = oi.id WHERE oi.order_id = ?`. -/
def breakfastOptionsOf (db : Db) (oid : Nat) : List BreakfastOrderOptionRow :=
  db.breakfast_order_options.filter (fun o =>
    db.order_items.any (fun it => it.id = o.order_item_id && it.order_id = oid))

/-- `SELECT id FROM stock_transactions WHERE order_id = ? AND
transaction_type = 'deduction' LIMIT 1` turned into an existence check. -/
def hasDeduction (db : Db) (oid : Nat) : Bool :=
  db.stock_transactions.any (fun t =>
    t.order_id = some oid && t.transaction_type = "deduction")

/-- `SELECT id FROM stock_transactions WHERE order_id = ? AND reason =
'Order cancellation stock restoration' LIMIT 1` turned into an existence
check. -/
def hasRestoration (db : Db) (oid : Nat) : Bool :=
  db.stock_transactions.any (fun t =>
    t.order_id = some oid && t.reason = "Order cancellation stock restoration")

/-- The stock-deduction loop shared by `POST /orders/:id/approve` and the
auto-approval block of `POST /orders`: lock each ingredient row, fail if it
is missing or short, otherwise subtract and record a `deduction` transaction.
An error models the surrounding `connection.rollback()`: the caller keeps the
original state. -/
def deductUsage (db : Db) (oid : Nat) : UsageMap → Except OrderError Db
  | [] => .ok db
  | (g, required) :: rest =>
    match lookupIngredient db g with
    | none => .error (.ingredientNotFound g)
    | some ing =>
      if ing.quantity_in_stock < required then
        .error (.insufficientStock ing.name required ing.quantity_in_stock)
      else
        deductUsage
          (addStockTransaction (setIngredientQty db g (ing.quantity_in_stock - required))
            ⟨g, -required, "deduction", some oid, "Order approval"⟩)
          oid rest

/-- The stock-restoration loop of `POST /orders/:id/cancel`: add each
quantity back and record an `addition` transaction. -/
def restoreUsage (db : Db) (oid : Nat) : UsageMap → Except OrderError Db
  | [] => .ok db
  | (g, qty) :: rest =>
    match lookupIngredient db g with
    | none => .error (.restoreIngredientNotFound g)
    | some ing =>
      restoreUsage
        (addStockTransaction (setIngredientQty db g (ing.quantity_in_stock + qty))
          ⟨g, qty, "addition", some oid, "Order cancellation stock restoration"⟩)
        oid rest

/-- `POST /orders/:id/approve` (admin/server only; `isStaff` is the result of
the `checkAdminOrServer` query).  Lock the order row, run the two idempotency
guards, deduct stock, then set `approved = 1, status = 'preparing'`.  Any
error rolls the transaction back, so the original state is returned. -/
def approveOrder (isStaff : Bool) (db : Db) (oid : Nat) :
    Except OrderError Unit × Db :=
  if ¬ isStaff then (.error .forbidden, db)
  else
    match findOrder db oid with
    | none => (.error .orderNotFound, db)
    | some o =>
      if o.approved ∧ o.status ≠ "cancelled" then (.error .alreadyApproved, db)
      else if hasDeduction db oid then (.error .alreadyDeducted, db)
      else
        match deductUsage db oid
            (computeIngredientUsageApprove db (orderItemsOf db oid) (breakfastOptionsOf db oid)) with
        | .error e => (.error e, db)
        | .ok db1 => (.ok (), setOrderApproved db1 oid true "preparing")

/-- `POST /orders/:id/cancel`.  Lock the order row, reject if already
cancelled; when `restoreStock` is requested and the order was approved, run
the restoration guards (`AlreadyRestored`, skip when no deduction exists)
and the restoration loop; finally set `status = 'cancelled', approved = 0`.
Any error rolls the whole transaction back. -/
def cancelOrder (isStaff : Bool) (db : Db) (oid : Nat) (restoreStock : Bool) :
    Except OrderError Unit × Db :=
  if ¬ isStaff then (.error .forbidden, db)
  else
    match findOrder db oid with
    | none => (.error .orderNotFound, db)
    | some o =>
      if o.status = "cancelled" then (.error .alreadyCancelled, db)
      else
        match
          (if restoreStock ∧ o.approved then
            if hasRestoration db oid then .error .alreadyRestored
            else if ¬ hasDeduction db oid then .ok db
            else
              restoreUsage db oid
                (computeIngredientUsageCancel db (orderItemsOf db oid) (breakfastOptionsOf db oid))
          else .ok db : Except OrderError Db) with
        | .error e => (.error e, db)
        | .ok db1 => (.ok (), setOrderApproved db1 oid false "cancelled")

/-- `PUT /orders/:id` with body `{approved}`: after the auth, id and value
checks it unconditionally writes `approved = ?` and `status = approved ?
'preparing' : <old status>` — no idempotency guard and no stock access. -/
def putOrder (isStaff : Bool) (db : Db) (oid : Nat) (approvedVal : Nat) :
    Except OrderError Unit × Db :=
  if ¬ isStaff then (.error .forbidden, db)
  else if approvedVal ≠ 1 ∧ approvedVal ≠ 0 then (.error .invalidApprovedValue, db)
  else
    match findOrder db oid with
    | none => (.error .orderNotFound, db)
    | some o =>
      (.ok (),
        setOrderApproved db oid (approvedVal = 1)
          (if approvedVal = 1 then "preparing" else o.status))

/-- A sequence of explicit approval calls, each operating on the state the
previous one left behind. -/
def approveAll (db : Db) (ids : List Nat) : Db :=
  ids.foldl (fun d i => (approveOrder true d i).2) db

/-- One entry of the `items` array of a `POST /orders` body.  `item_id = 0`
models the JavaScript falsy/invalid id rejected by validation. -/
structure MenuLine where
  item_id : Nat
  quantity : Nat
  unit_price : Rat
  supplement_ids : List Nat
  supplement_id : Option Nat
  deriving Repr, DecidableEq

/-- One entry of the `breakfastItems` array; an absent `option_ids` array is
modelled as `[]`. -/
structure BreakfastLine where
  breakfast_id : Nat
  quantity : Nat
  unit_price : Rat
  option_ids : List Nat
  deriving Repr, DecidableEq

/-- A `POST /orders` request after header resolution: `session_id` is the
already-resolved session id (body value, `x-session-id` header or staff
fallback), `deviceId` the `x-device-id` header defaulted to "unknown", and
`isStaffRequest` the `req.user` role check plus `source === 'staff-console'`. -/
structure OrderRequest where
  items : List MenuLine
  breakfastItems : List BreakfastLine
  total_price : Rat
  order_type : String
  delivery_address : Option String
  promotion_id : Option Nat
  table_id : Option Nat
  notes : Option String
  session_id : Option String
  isStaffRequest : Bool
  deviceId : String
  ip : String
  userAgent : String
  deriving Repr, DecidableEq

/-- The duplicate-submission hash input
`{items, breakfastItems, table_id, order_type, total_price, sessionId,
notes}`; SHA-256 is modelled injectively by the payload itself. -/
structure GuardKey where
  items : List MenuLine
  breakfastItems : List BreakfastLine
  table_id : Option Nat
  order_type : String
  total_price : Rat
  sessionId : String
  notes : Option String
  deriving Repr, DecidableEq

/-- The UUID regex
`/^[0-9a-f]{8}-[0-9a-f]{4}-[0-9a-f]{4}-[0-9a-f]{4}-[0-9a-f]{12}$/i`. -/
def isUuidFormat (s : String) : Bool :=
  let cs := s.toList
  cs.length = 36 &&
  (List.range 36).all (fun i =>
    let c := cs.getD i ' '
    if i = 8 || i = 13 || i = 18 || i = 23 then c = '-'
    else c.isDigit || ('a' ≤ c && c ≤ 'f') || ('A' ≤ c && c ≤ 'F'))

/-- `DELETE FROM device_order_limits WHERE order_timestamp < NOW() -
INTERVAL 1 HOUR` (time in seconds). -/
def purgeDeviceLimits (db : Db) (now : Int) : Db :=
  { db with device_order_limits :=
      db.device_order_limits.filter (fun r => ¬ r.order_timestamp < now - 3600) }

/-- `SELECT COUNT(*) FROM device_order_limits WHERE device_fingerprint IN
(...) AND order_timestamp >= NOW() - INTERVAL 1 HOUR`. -/
def recentCount (db : Db) (now : Int) (fps : List Fingerprint) : Nat :=
  (db.device_order_limits.filter (fun r =>
    r.fingerprint ∈ fps && now - 3600 ≤ r.order_timestamp)).length

/-- `SELECT availability, regular_price, sale_price FROM menu_items WHERE
id = ?`. -/
def findMenuItem (db : Db) (i : Nat) : Option MenuItemRow :=
  db.menu_items.find? (fun r => r.id = i)

/-- `sale_price !== null ? parseFloat(sale_price) : parseFloat(regular_price)`. -/
def menuLineBase (m : MenuItemRow) : Rat :=
  match m.sale_price with
  | some sp => sp
  | none => m.regular_price

/-- The requested supplement id set: the `supplement_ids` array plus the
legacy single `supplement_id` when not already present. -/
def lineSupplementIds (l : MenuLine) : List Nat :=
  match l.supplement_id with
  | some s => if s ∈ l.supplement_ids then l.supplement_ids
              else l.supplement_ids ++ [s]
  | none => l.supplement_ids

/-- `SELECT supplement_id, additional_price FROM menu_item_supplements WHERE
menu_item_id = ? AND supplement_id IN (?)`. -/
def supplementRowsFor (db : Db) (item : Nat) (ids : List Nat) :
    List MenuItemSupplementRow :=
  db.menu_item_supplements.filter (fun r =>
    r.menu_item_id = item && r.supplement_id ∈ ids)

/-- Validation and price verification of one menu-item cart line
(`POST /orders`, per-item loop): id/quantity/price shape checks, fetch and
availability, supplement count check, expected unit total and the 0.01
tolerance comparison.  Returns the line total `itemTotal * quantity`
accumulated into the cart total. -/
def verifyMenuLine (db : Db) (l : MenuLine) : Except OrderError Rat :=
  if l.item_id = 0 then .error (.invalidItemId l.item_id)
  else if l.quantity = 0 then .error (.invalidQuantity l.item_id)
  else if l.unit_price ≤ 0 then .error (.invalidUnitPrice l.item_id)
  else
    match findMenuItem db l.item_id with
    | none => .error (.itemUnavailable l.item_id)
    | some m =>
      if ¬ m.availability then .error (.itemUnavailable l.item_id)
      else
        let base := menuLineBase m
        let ids := lineSupplementIds l
        let withSupp : Except OrderError Rat :=
          if ids ≠ [] then
            let rows := supplementRowsFor db l.item_id ids
            if rows.length ≠ ids.length then
              .error (.invalidSupplement l.item_id ids (rows.map (fun r => r.supplement_id)))
            else
              .ok (base + (rows.map (fun r => r.additional_price)).sum)
          else .ok base
        match withSupp with
        | .error e => .error e
        | .ok itemTotal =>
          if |l.unit_price - itemTotal| > 1/100 then
            .error (.priceMismatch l.item_id itemTotal l.unit_price)
          else
            .ok (itemTotal * l.quantity)

/-- The `for (const item of items)` loop accumulating `calculatedTotal`. -/
def verifyMenuLines (db : Db) (acc : Rat) : List MenuLine → Except OrderError Rat
  | [] => .ok acc
  | l :: rest =>
    match verifyMenuLine db l with
    | .error e => .error e
    | .ok t => verifyMenuLines db (acc + t) rest

/-- `SELECT availability, price FROM breakfasts WHERE id = ?`. -/
def findBreakfast (db : Db) (b : Nat) : Option BreakfastRow :=
  db.breakfasts.find? (fun r => r.id = b)

/-- The option-group UNION query: groups owned by the breakfast having at
least one option, plus reusable groups (`breakfast_id IS NULL`) attached
through `breakfast_option_group_mappings` having at least one option.
(`UNION` deduplication is the identity here because the two branches are
disjoint and the group table is keyed by id.) -/
def fetchGroups (db : Db) (b : Nat) : List OptionGroupRow :=
  db.breakfast_option_groups.filter (fun g =>
    g.breakfast_id = some b &&
    db.breakfast_options.any (fun o => o.group_id = g.id)) ++
  db.breakfast_option_groups.filter (fun g =>
    g.breakfast_id = none &&
    db.breakfast_option_group_mappings.any (fun mg =>
      mg.breakfast_id = b && mg.option_group_id = g.id) &&
    db.breakfast_options.any (fun o => o.group_id = g.id))

/-- `SELECT bo.id, bo.group_id, bo.additional_price FROM breakfast_options bo
JOIN breakfast_option_groups bog ON bo.group_id = bog.id WHERE
(bo.breakfast_id = ? OR bo.breakfast_id IS NULL) AND bo.id IN (?)`. -/
def fetchSelectedOptions (db : Db) (b : Nat) (ids : List Nat) :
    List BreakfastOptionRow :=
  db.breakfast_options.filter (fun o =>
    (o.breakfast_id = some b || o.breakfast_id = none) && o.id ∈ ids &&
    db.breakfast_option_groups.any (fun g => g.id = o.group_id))

/-- `g.title || Group ${g.id}` (an empty title string is falsy in JS). -/
def groupTitle (g : OptionGroupRow) : String :=
  match g.title with
  | some t => if t = "" then "Group " ++ toString g.id else t
  | none => "Group " ++ toString g.id

/-- Validation, option-group obligation checking and price verification of
one breakfast cart line (`POST /orders`, per-breakfast loop).  Returns the
verified per-unit price (client price when above expected, by the surcharge
policy). -/
def verifyBreakfastLine (db : Db) (l : BreakfastLine) : Except OrderError Rat :=
  if l.breakfast_id = 0 then .error (.invalidBreakfastId l.breakfast_id)
  else if l.quantity = 0 then .error (.invalidBreakfastQuantity l.breakfast_id)
  else if l.unit_price ≤ 0 then .error (.invalidBreakfastUnitPrice l.breakfast_id)
  else
    match findBreakfast db l.breakfast_id with
    | none => .error (.breakfastUnavailable l.breakfast_id)
    | some b =>
      if ¬ b.availability then .error (.breakfastUnavailable l.breakfast_id)
      else
        let groups := fetchGroups db l.breakfast_id
        let priced : Except OrderError Rat :=
          if l.option_ids ≠ [] then
            let options := fetchSelectedOptions db l.breakfast_id l.option_ids
            if options.length ≠ l.option_ids.length then
              .error (.invalidOption l.breakfast_id l.option_ids
                (options.map (fun o => o.id)))
            else
              let selectedGroups := options.map (fun o => o.group_id)
              let requiredGroups :=
                (groups.filter (fun g => g.is_required)).map (fun g => g.id)
              let missing := requiredGroups.filter (fun g => ¬ g ∈ selectedGroups)
              if missing ≠ [] then
                .error (.missingRequiredGroup l.breakfast_id
                  ((groups.filter (fun g => g.id ∈ missing)).map groupTitle))
              else
                .ok (b.price + (options.map (fun o => o.additional_price)).sum)
          else
            if (groups.filter (fun g => g.is_required)) ≠ [] then
              .error (.missingRequiredGroup l.breakfast_id
                ((groups.filter (fun g => g.is_required)).map groupTitle))
            else .ok b.price
        match priced with
        | .error e => .error e
        | .ok expected =>
          if l.unit_price + 1/100 < expected then
            .error (.breakfastPriceBelow l.breakfast_id expected l.unit_price)
          else if l.unit_price > expected then .ok l.unit_price
          else .ok expected

/-- The value of one `breakfastMap` entry. -/
structure BreakfastEntry where
  quantity : Nat
  unit_price : Rat
  option_ids : List Nat
  deriving Repr, DecidableEq

/-- The `breakfastMap` JavaScript `Map`, insertion ordered. -/
abbrev BreakfastMap := List (Nat × BreakfastEntry)

/-- `entry.option_ids.push(...option_ids.filter(id =>
!entry.option_ids.includes(id)))`: the new ids are filtered against the
accumulated list before being appended. -/
def unionOptionIds (acc newIds : List Nat) : List Nat :=
  acc ++ newIds.filter (fun i => ¬ i ∈ acc)

/-- Coalescing step of the per-breakfast loop: create the entry on first
sight (keeping that line's verified unit price), then add the quantity and
union the option ids. -/
def breakfastMapAdd : BreakfastMap → Nat → Nat → Rat → List Nat → BreakfastMap
  | [], b, qty, price, opts => [(b, ⟨qty, price, unionOptionIds [] opts⟩)]
  | (b', e) :: rest, b, qty, price, opts =>
    if b' = b then
      (b', { e with quantity := e.quantity + qty,
                    option_ids := unionOptionIds e.option_ids opts }) :: rest
    else (b', e) :: breakfastMapAdd rest b qty price opts

/-- The `for (const item of breakfastItems)` loop: verify each line,
accumulate `expectedPrice * quantity` into the total and coalesce the line
into the breakfast map. -/
def verifyBreakfastLines (db : Db) (acc : Rat) (m : BreakfastMap) :
    List BreakfastLine → Except OrderError (Rat × BreakfastMap)
  | [] => .ok (acc, m)
  | l :: rest =>
    match verifyBreakfastLine db l with
    | .error e => .error e
    | .ok expected =>
      verifyBreakfastLines db (acc + expected * l.quantity)
        (breakfastMapAdd m l.breakfast_id l.quantity expected l.option_ids) rest

/-- Table handling of `POST /orders` for local orders: `SELECT id, status
FROM tables WHERE id = ? OR table_number = ?`, reject missing or reserved
tables, and mark a non-occupied table occupied — a write that happens
OUTSIDE the order transaction, before the promotion overlay and the final
total check. -/
def resolveTable (db : Db) (t : Nat) : Except OrderError (TableRow × Db) :=
  match db.tables.find? (fun r => r.id = t || r.table_number = t) with
  | none => .error .tableNotFound
  | some tr =>
    if tr.status = "reserved" then .error .tableReserved
    else if tr.status ≠ "occupied" then
      .ok (tr, { db with tables := db.tables.map (fun r =>
        if r.id = tr.id then { r with status := "occupied" } else r) })
    else .ok (tr, db)

/-- `SELECT discount_percentage, item_id FROM promotions WHERE id = ? AND
active = TRUE AND NOW() BETWEEN start_date AND end_date`. -/
def findActivePromotion (db : Db) (now : Int) (pid : Nat) : Option PromotionRow :=
  db.promotions.find? (fun p =>
    p.id = pid && p.active && p.start_date ≤ now && now ≤ p.end_date)

/-- Recomputed price of one menu-item line inside the promotion overlay:
base price times quantity plus supplement prices times quantity.  (The
source indexes `menuItem[0]` unguarded; the row exists because the base
verification ran first, so the impossible branch returns 0.) -/
def promoMenuLinePrice (db : Db) (l : MenuLine) : Rat :=
  match findMenuItem db l.item_id with
  | none => 0
  | some m =>
    let base := menuLineBase m * l.quantity
    let ids := lineSupplementIds l
    if ids ≠ [] then
      base + ((supplementRowsFor db l.item_id ids).map
        (fun r => r.additional_price)).sum * l.quantity
    else base

/-- Recomputed price of one breakfast line inside the promotion overlay:
`SELECT additional_price FROM breakfast_options WHERE breakfast_id = ? AND
id IN (?)` — note: only breakfast-owned options, and multiplied by the
quantity, unlike the base verification. -/
def promoBreakfastLinePrice (db : Db) (l : BreakfastLine) : Rat :=
  match findBreakfast db l.breakfast_id with
  | none => 0
  | some b =>
    let base := b.price * l.quantity
    if l.option_ids ≠ [] then
      base + ((db.breakfast_options.filter (fun o =>
        o.breakfast_id = some l.breakfast_id && o.id ∈ l.option_ids)).map
        (fun o => o.additional_price)).sum * l.quantity
    else base

/-- The promotion overlay loops: menu-item lines get the discount when the
promotion is store-wide (`item_id IS NULL`) or matches the line's item;
breakfast lines are accumulated afterwards. -/
def promoRecompute (db : Db) (p : PromotionRow) (items : List MenuLine)
    (bitems : List BreakfastLine) : Rat :=
  let discount := p.discount_percentage / 100
  let itemsAcc := items.foldl (fun acc l =>
    let lp := promoMenuLinePrice db l
    acc + (if p.item_id = none ∨ p.item_id = some l.item_id
           then lp * (1 - discount) else lp)) 0
  bitems.foldl (fun acc l => acc + promoBreakfastLinePrice db l) itemsAcc

/-- The total used for the final `total_price` comparison: the promotion
overlay overrides the base total whenever the supplied promotion is active. -/
def finalTotal (db : Db) (now : Int) (req : OrderRequest) (baseTotal : Rat) : Rat :=
  match req.promotion_id with
  | some pid =>
    match findActivePromotion db now pid with
    | some p => promoRecompute db p req.items req.breakfastItems
    | none => baseTotal
  | none => baseTotal

/-- `INSERT INTO order_items (order_id, item_id, quantity, unit_price,
supplement_id)` per menu-item cart line, carrying the client unit price and
the first supplement id as the legacy primary supplement. -/
def insertMenuRows (oid : Nat) : Db → List MenuLine → Db
  | db, [] => db
  | db, l :: rest =>
    insertMenuRows oid
      { db with
        order_items := db.order_items ++
          [⟨db.nextOrderItemId, oid, some l.item_id, none, l.quantity,
            l.unit_price, (lineSupplementIds l).head?⟩],
        nextOrderItemId := db.nextOrderItemId + 1 } rest

/-- One coalesced `order_items` row per `breakfastMap` entry plus its
`breakfast_order_options` rows. -/
def insertBreakfastRows (oid : Nat) : Db → BreakfastMap → Db
  | db, [] => db
  | db, (b, e) :: rest =>
    insertBreakfastRows oid
      { db with
        order_items := db.order_items ++
          [⟨db.nextOrderItemId, oid, none, some b, e.quantity, e.unit_price, none⟩],
        breakfast_order_options := db.breakfast_order_options ++
          e.option_ids.map (fun o => ⟨db.nextOrderItemId, o⟩),
        nextOrderItemId := db.nextOrderItemId + 1 } rest

/-- The `POST /orders` database transaction: insert the order row (status
`pending`, or `preparing` for staff auto-approval), record rate-limit rows
for public clients, insert the order items and breakfast options, then for
auto-approval run the stock-deduction algorithm and set
`approved = 1, status = 'preparing'`, and insert the staff notification.
An error models the rollback: the caller keeps the pre-transaction state. -/
def runOrderTransaction (now : Int) (db0 : Db) (req : OrderRequest)
    (sessionId : String) (fps : List Fingerprint) (total : Rat)
    (bmap : BreakfastMap) (effTid : Option Nat) : Except OrderError (Nat × Db) :=
  let oid := db0.nextOrderId
  let db1 := { db0 with
    orders := db0.orders ++
      [⟨oid, total, req.order_type, req.delivery_address, req.promotion_id,
        (if req.order_type = "local" then effTid else none), sessionId,
        req.notes, (if req.isStaffRequest then "preparing" else "pending"),
        false⟩],
    nextOrderId := oid + 1 }
  let db2 := if req.isStaffRequest then db1
    else { db1 with device_order_limits :=
      db1.device_order_limits ++ fps.map (fun fp => ⟨fp, now⟩) }
  let db3 := insertMenuRows oid db2 req.items
  let db4 := insertBreakfastRows oid db3 bmap
  if req.isStaffRequest then
    match deductUsage db4 oid
        (computeIngredientUsageAutoApprove db4 (orderItemsOf db4 oid)
          (breakfastOptionsOf db4 oid)) with
    | .error e => .error e
    | .ok db5 => .ok (oid, setOrderApproved db5 oid true "preparing")
  else
    .ok (oid, { db4 with notifications :=
      db4.notifications ++ [⟨"order", oid⟩] })

/-- The table-handling step of `POST /orders`: run `resolveTable` for local
orders carrying a table reference, otherwise pass through; the resolved
table's primary id becomes the effective table id. -/
def tableStep (db : Db) (order_type : String) (table_id : Option Nat) :
    Except OrderError (Option Nat × Db) :=
  if order_type = "local" then
    match table_id with
    | some t =>
      match resolveTable db t with
      | .error e => .error e
      | .ok (tr, db') => .ok (some tr.id, db')
    | none => .ok (table_id, db)
  else .ok (table_id, db)

/-- `POST /orders`.  Inputs: the current time, the in-memory
`recentRequests` duplicate guard, the database state and the request;
output: the HTTP result, the new database state and the new guard.  The
pre-transaction phase mirrors the source order exactly: device-id check,
rate-limit purge and count (public clients only), session check, duplicate
guard (the guard entry stays even when a later step rejects), shape checks,
menu-item price verification, breakfast verification and coalescing, table
resolution (with its occupied-status write), promotion overlay, final total
comparison, then the transaction. -/
def requestFingerprints (req : OrderRequest) : List Fingerprint :=
  [Fingerprint.device req.deviceId, Fingerprint.network req.ip req.userAgent]

/-- The duplicate-guard key of a request under a resolved session id. -/
def requestGuardKey (req : OrderRequest) (sid : String) : GuardKey :=
  ⟨req.items, req.breakfastItems, req.table_id, req.order_type,
    req.total_price, sid, req.notes⟩

/-- `!s.trim()`: the string trims to empty, i.e. contains only whitespace. -/
def isBlank (s : String) : Bool :=
  s.toList.all Char.isWhitespace

/-- The state after the rate-limit purge, skipped for staff requests. -/
def dbAfterPurge (db : Db) (now : Int) (req : OrderRequest) : Db :=
  if req.isStaffRequest then db else purgeDeviceLimits db now

def createOrder (now : Int) (guard : List GuardKey) (db : Db)
    (req : OrderRequest) : Except OrderError Nat × Db × List GuardKey :=
  if ¬ req.isStaffRequest ∧
      (req.deviceId = "unknown" ∨ req.deviceId = "" ∨
        ¬ isUuidFormat req.deviceId) then
    (.error .invalidDevice, db, guard)
  else
    if ¬ req.isStaffRequest ∧
        3 ≤ recentCount (dbAfterPurge db now req) now (requestFingerprints req) then
      (.error .rateLimited, dbAfterPurge db now req, guard)
    else
      match req.session_id with
      | none => (.error .invalidSession, dbAfterPurge db now req, guard)
      | some sid =>
        if isBlank sid then
          (.error .invalidSession, dbAfterPurge db now req, guard)
        else
          if requestGuardKey req sid ∈ guard then
            (.error .duplicateOrder, dbAfterPurge db now req, guard)
          else
            if req.items = [] ∧ req.breakfastItems = [] then
              (.error .emptyItems, dbAfterPurge db now req,
                guard ++ [requestGuardKey req sid])
            else if ¬ req.order_type ∈
                ["local", "delivery", "takeaway", "imported"] then
              (.error .invalidOrderType, dbAfterPurge db now req,
                guard ++ [requestGuardKey req sid])
            else if req.order_type = "local" ∧ req.table_id = none then
              (.error .tableRequired, dbAfterPurge db now req,
                guard ++ [requestGuardKey req sid])
            else if req.order_type = "delivery" ∧
                isBlank (req.delivery_address.getD "") then
              (.error .addressRequired, dbAfterPurge db now req,
                guard ++ [requestGuardKey req sid])
            else
              match verifyMenuLines (dbAfterPurge db now req) 0 req.items with
              | .error e => (.error e, dbAfterPurge db now req,
                  guard ++ [requestGuardKey req sid])
              | .ok itemsTotal =>
                match verifyBreakfastLines (dbAfterPurge db now req)
                    itemsTotal [] req.breakfastItems with
                | .error e => (.error e, dbAfterPurge db now req,
                    guard ++ [requestGuardKey req sid])
                | .ok (baseTotal, bmap) =>
                  match tableStep (dbAfterPurge db now req) req.order_type
                      req.table_id with
                  | .error e => (.error e, dbAfterPurge db now req,
                      guard ++ [requestGuardKey req sid])
                  | .ok (effTid, db2) =>
                    if |req.total_price -
                        finalTotal db2 now req baseTotal| > 1/100 then
                      (.error (.totalMismatch
                          (finalTotal db2 now req baseTotal) req.total_price),
                        db2, guard ++ [requestGuardKey req sid])
                    else
                      match runOrderTransaction now db2 req sid
                          (requestFingerprints req)
                          (finalTotal db2 now req baseTotal) bmap effTid with
                      | .error e => (.error e, db2,
                          guard ++ [requestGuardKey req sid])
                      | .ok (oid, db') => (.ok oid, db',
                          guard ++ [requestGuardKey req sid])

/-- The part of the state that every rejection of `POST /orders` must leave
untouched: orders, order items, breakfast option selections, ingredients,
the stock ledger and notifications.  (Tables and rate-limit rows are
deliberately not included: see the table-occupation write and the purge.) -/
def sameCore (db db' : Db) : Prop :=
  db'.orders = db.orders ∧ db'.order_items = db.order_items ∧
  db'.ingredients = db.ingredients ∧
  db'.stock_transactions = db.stock_transactions ∧
  db'.breakfast_order_options = db.breakfast_order_options ∧
  db'.notifications = db.notifications

/-- The store-wide 50% promotion of the C6 counterexample. -/
def exPromo6 : PromotionRow := ⟨5, 50, none, true, 0, 100⟩

/-- Catalog for the C6 counterexample: one available breakfast priced 10,
one active store-wide promotion, nothing else. -/
def exDb6 : Db :=
  ⟨[], [], [], [], [⟨1, true, 10⟩], [], [], [], [], [], [exPromo6], [], [],
    [], [], [], [], [], [], 1, 1⟩

/-- A public cart with a single breakfast line and the store-wide promotion,
claiming the undiscounted total. -/
def exReq6 : OrderRequest :=
  ⟨[], [⟨1, 1, 10, []⟩], 10, "takeaway", none, some 5, none, none, some "s1",
    false, "123e4567-e89b-12d3-a456-426614174000", "ip", "ua"⟩

/-- Catalog for the C7 counterexample: one available menu item priced 9 and
one free table. -/
def exDb7 : Db :=
  ⟨[⟨5, true, 9, none⟩], [], [], [], [], [], [], [], [], [], [],
    [⟨2, 7, "free"⟩], [], [], [], [], [], [], [], 1, 1⟩

/-- A public local order for the free table whose client total (100) does
not match the computed total (9). -/
def exReq7 : OrderRequest :=
  ⟨[⟨5, 1, 9, [], none⟩], [], 100, "local", none, none, some 2, none,
    some "s1", false, "123e4567-e89b-12d3-a456-426614174000", "ip", "ua"⟩

/-- Quantity of the `breakfastMap` entry for a breakfast id (0 if absent). -/
def bmapQty : BreakfastMap → Nat → Nat
  | [], _ => 0
  | (b', e) :: rest, b => if b' = b then e.quantity else bmapQty rest b

/-- Accumulated option ids of the `breakfastMap` entry (`[]` if absent). -/
def bmapOpts : BreakfastMap → Nat → List Nat
  | [], _ => []
  | (b', e) :: rest, b => if b' = b then e.option_ids else bmapOpts rest b

/-- The `order_items` rows inserted for the menu-item cart lines, starting
at auto-increment id `iid`. -/
def menuRowsFrom (oid : Nat) : Nat → List MenuLine → List OrderItemRow
  | _, [] => []
  | iid, l :: rest =>
    ⟨iid, oid, some l.item_id, none, l.quantity, l.unit_price,
      (lineSupplementIds l).head?⟩ :: menuRowsFrom oid (iid + 1) rest

/-- The coalesced `order_items` rows inserted for the breakfast map, one per
entry. -/
def breakfastRowsFrom (oid : Nat) : Nat → BreakfastMap → List OrderItemRow
  | _, [] => []
  | iid, (b, e) :: rest =>
    ⟨iid, oid, none, some b, e.quantity, e.unit_price, none⟩ ::
      breakfastRowsFrom oid (iid + 1) rest

/-- The `breakfast_order_options` rows inserted for the breakfast map: one
row per accumulated option id, pointing at its entry's order-item row. -/
def breakfastOptRowsFrom : Nat → BreakfastMap → List BreakfastOrderOptionRow
  | _, [] => []
  | iid, (_, e) :: rest =>
    e.option_ids.map (fun o => ⟨iid, o⟩) ++ breakfastOptRowsFrom (iid + 1) rest

/-- A pending takeaway order used to exercise the approval routes on a
catalog with no stock mappings. -/
def w1Order : OrderRow :=
  ⟨1, 10, "takeaway", none, none, none, "s", none, "pending", false⟩

/-- Database holding only the pending order `w1Order`. -/
def w1Db : Db :=
  ⟨[], [], [], [], [], [], [], [], [], [], [], [], [], [], [w1Order], [], [],
    [], [], 2, 1⟩

/-- `w1Db` after its order is approved. -/
def w1Db2 : Db := setOrderApproved w1Db 1 true "preparing"

/-- An available menu item priced 9 with no sale price. -/
def w5Item : MenuItemRow := ⟨5, true, 9, none⟩

/-- Database holding only the menu item `w5Item`. -/
def w5Db : Db :=
  ⟨[w5Item], [], [], [], [], [], [], [], [], [], [], [], [], [], [], [], [],
    [], [], 1, 1⟩

/-- A cart line for `w5Item` at the correct unit price, no supplements. -/
def w5Line : MenuLine := ⟨5, 2, 9, [], none⟩

/-- An available breakfast priced 7 with one required option group. -/
def w8Bf : BreakfastRow := ⟨3, true, 7⟩

/-- The required option group owned by breakfast 3. -/
def w8Group : OptionGroupRow := ⟨4, some 3, true, some "Drinks"⟩

/-- One option inside the required group. -/
def w8Opt : BreakfastOptionRow := ⟨6, 4, some 3, 0⟩

/-- Database holding the breakfast, its required group and one option. -/
def w8Db : Db :=
  ⟨[], [], [], [], [w8Bf], [], [w8Group], [w8Opt], [], [], [], [], [], [],
    [], [], [], [], [], 1, 1⟩

/-- A cart line for breakfast 3 at the base price with no selected options. -/
def w8Line : BreakfastLine := ⟨3, 1, 7, []⟩

/-- A public submission with a blank device id: rejected before any work. -/
def w7Req : OrderRequest :=
  ⟨[], [], 0, "takeaway", none, none, none, none, some "s1", false, "",
    "ip", "ua"⟩

/-- The database state left by the successful submission of `exReq6`. -/
def w9DbOut : Db := (createOrder 0 [] exDb6 exReq6).2.1

theorem usageGet_usageAdd (m : UsageMap) (k : Nat) (v : Rat) (g : Nat) :
    usageGet (usageAdd m k v) g = usageGet m g + (if g = k then v else 0) := by
  induction m with
  | nil =>
    by_cases h : g = k <;> simp [usageAdd, usageGet, h] <;> omega
  | cons p rest ih =>
    by_cases hpk : p.1 = k
    · by_cases hpg : p.1 = g <;>
        simp_all [usageAdd, usageGet] <;> omega
    · by_cases hpg : p.1 = g
      · have : ¬ g = k := by omega
        simp [usageAdd, hpk, usageGet, hpg, this]
      · simp [usageAdd, hpk, usageGet, hpg, ih]

theorem usageGet_eq_zero_of_not_mem (m : UsageMap) (g : Nat)
    (h : g ∉ m.map Prod.fst) : usageGet m g = 0 := by
  induction m with
  | nil => rfl
  | cons p rest ih =>
    simp only [List.map_cons, List.mem_cons] at h
    push_neg at h
    have : ¬ p.1 = g := by omega
    simpa [usageGet, this] using ih h.2

theorem usageAdd_keys (m : UsageMap) (k : Nat) (v : Rat) :
    (usageAdd m k v).map Prod.fst =
      if k ∈ m.map Prod.fst then m.map Prod.fst else m.map Prod.fst ++ [k] := by
  induction m with
  | nil => simp [usageAdd]
  | cons p rest ih =>
    by_cases hpk : p.1 = k
    · simp [usageAdd, hpk]
    · have hkp : ¬ k = p.1 := fun h => hpk h.symm
      by_cases hk : k ∈ rest.map Prod.fst <;>
        simp [usageAdd, hpk, ih, hkp, hk]

theorem usageAdd_keys_nodup (m : UsageMap) (k : Nat) (v : Rat)
    (h : (m.map Prod.fst).Nodup) : ((usageAdd m k v).map Prod.fst).Nodup := by
  rw [usageAdd_keys]
  by_cases hk : k ∈ m.map Prod.fst
  · simpa [hk] using h
  · simp [hk, List.nodup_append, h]

theorem usageGet_addMappings (rows : List IngredientMapRow) (m : UsageMap)
    (mult : Rat) (g : Nat) :
    usageGet (addMappings m rows mult) g =
      usageGet m g +
        ((rows.filter (fun r => r.ingredient_id = g)).map (fun r => r.quantity)).sum * mult := by
  induction rows generalizing m with
  | nil => simp [addMappings]
  | cons r rest ih =>
    simp only [addMappings, List.foldl_cons] at ih ⊢
    rw [ih (usageAdd m r.ingredient_id (r.quantity * mult)), usageGet_usageAdd]
    by_cases hg : r.ingredient_id = g
    · have hg' : g = r.ingredient_id := hg.symm
      rw [if_pos hg', List.filter_cons_of_pos (by simp [hg]), List.map_cons,
        List.sum_cons, add_mul]
      ring
    · have hg' : ¬ g = r.ingredient_id := fun h => hg h.symm
      rw [if_neg hg', List.filter_cons_of_neg (by simp [hg])]
      ring

theorem usageGet_stepOwner (m : UsageMap) (table : List IngredientMapRow)
    (x : Option Nat) (mult : Rat) (g : Nat) :
    usageGet (stepOwner m table x mult) g =
      usageGet m g + (match x with
        | some i => mapTotal table i g
        | none => 0) * mult := by
  cases x with
  | none => simp [stepOwner]
  | some i => simp [stepOwner, usageGet_addMappings, mapTotal]

theorem usageGet_usageOfItem (db : Db) (m : UsageMap) (it : OrderItemRow) (g : Nat) :
    usageGet (usageOfItem db m it) g = usageGet m g + itemRequires db g it := by
  unfold usageOfItem itemRequires
  simp only [usageGet_stepOwner]
  rcases it.item_id with _ | i <;> rcases it.supplement_id with _ | s <;>
    rcases it.breakfast_id with _ | b <;> simp <;> ring

theorem usageGet_itemsFold (db : Db) (items : List OrderItemRow) (m : UsageMap) (g : Nat) :
    usageGet (items.foldl (usageOfItem db) m) g =
      usageGet m g + ((items.map (itemRequires db g)).sum) := by
  induction items generalizing m with
  | nil => simp
  | cons it rest ih => simp [List.foldl_cons, ih, usageGet_usageOfItem]; ring

theorem usageGet_optsFold (db : Db) (opts : List BreakfastOrderOptionRow)
    (m : UsageMap) (g : Nat) :
    usageGet
        (opts.foldl
          (fun acc o =>
            addMappings acc
              (mappingsFor db.breakfast_option_ingredients o.breakfast_option_id) 1) m) g =
      usageGet m g +
        ((opts.map
          (fun o => mapTotal db.breakfast_option_ingredients o.breakfast_option_id g)).sum) := by
  induction opts generalizing m with
  | nil => simp
  | cons o rest ih =>
    rw [List.foldl_cons, ih, usageGet_addMappings]
    simp [mapTotal]
    ring

theorem find?_map_pred {α : Type} (l : List α) (p : α → Bool) (f : α → α)
    (hf : ∀ a, p (f a) = p a) : (l.map f).find? p = (l.find? p).map f := by
  induction l with
  | nil => rfl
  | cons a t ih =>
    simp only [List.map_cons, List.find?_cons, hf a]
    by_cases hp : p a
    · simp [hp]
    · simp [hp, ih]

theorem lookupIngredient_setIngredientQty (db : Db) (g : Nat) (q : Rat) (g' : Nat) :
    lookupIngredient (setIngredientQty db g q) g' =
      (lookupIngredient db g').map (fun r =>
        if r.id = g then { r with quantity_in_stock := q } else r) := by
  unfold lookupIngredient setIngredientQty
  refine find?_map_pred _ _ _ ?_
  intro a
  by_cases h : a.id = g <;> simp [h]

theorem lookupIngredient_mem (db : Db) (g : Nat) (r : IngredientRow)
    (h : lookupIngredient db g = some r) : r.id = g := by
  have := List.find?_some h
  simpa using this

theorem findOrder_setOrderApproved (db : Db) (oid : Nat) (b : Bool) (s : String)
    (oid' : Nat) :
    findOrder (setOrderApproved db oid b s) oid' =
      (findOrder db oid').map (fun o =>
        if o.id = oid then { o with approved := b, status := s } else o) := by
  unfold findOrder setOrderApproved
  refine find?_map_pred _ _ _ ?_
  intro a
  by_cases h : a.id = oid <;> simp [h]

theorem deductUsage_frame (oid : Nat) (us : UsageMap) :
    ∀ db db', deductUsage db oid us = .ok db' →
      db' = { db with ingredients := db'.ingredients,
                      stock_transactions := db'.stock_transactions } := by
  induction us with
  | nil => intro db db' h; cases h; rfl
  | cons p rest ih =>
    intro db db' h
    rcases p with ⟨g, required⟩
    unfold deductUsage at h
    split at h
    · cases h
    · split at h
      · cases h
      · have := ih _ _ h
        rw [this]
        rfl

theorem deductUsage_transactions (oid : Nat) (us : UsageMap) :
    ∀ db db', deductUsage db oid us = .ok db' →
      db'.stock_transactions = db.stock_transactions ++
        us.map (fun p =>
          (⟨p.1, -p.2, "deduction", some oid, "Order approval"⟩ : StockTransactionRow)) := by
  induction us with
  | nil => intro db db' h; cases h; simp
  | cons p rest ih =>
    intro db db' h
    rcases p with ⟨g, required⟩
    unfold deductUsage at h
    split at h
    · cases h
    · split at h
      · cases h
      · have := ih _ _ h
        simp only [addStockTransaction, setIngredientQty] at this
        simp [this]

theorem setIngredientQty_ids (db : Db) (g : Nat) (q : Rat) :
    (setIngredientQty db g q).ingredients.map (fun r => r.id) =
      db.ingredients.map (fun r => r.id) := by
  unfold setIngredientQty
  rw [List.map_map]
  refine List.map_congr_left ?_
  intro r _
  by_cases h : r.id = g <;> simp [Function.comp, h]

theorem deductUsage_ingredients (oid : Nat) (us : UsageMap) :
    ∀ db db', (us.map Prod.fst).Nodup →
      (db.ingredients.map (fun r => r.id)).Nodup →
      deductUsage db oid us = .ok db' →
      db'.ingredients = db.ingredients.map (fun r =>
        { r with quantity_in_stock := r.quantity_in_stock - usageGet us r.id }) := by
  induction us with
  | nil =>
    intro db db' _ _ h; cases h
    have : ∀ r : IngredientRow,
        ({ r with quantity_in_stock := r.quantity_in_stock - usageGet [] r.id }) = r := by
      intro r; simp [usageGet]
    simp [this]
  | cons p rest ih =>
    intro db db' hnd hids h
    rcases p with ⟨g, required⟩
    unfold deductUsage at h
    split at h
    · cases h
    · rename_i ing hl
      split at h
      · cases h
      · simp only [List.map_cons, List.nodup_cons] at hnd
        have hids2 :
            (((addStockTransaction
                (setIngredientQty db g (ing.quantity_in_stock - required))
                ⟨g, -required, "deduction", some oid, "Order approval"⟩).ingredients).map
              (fun r => r.id)).Nodup := by
          simpa [addStockTransaction, setIngredientQty_ids] using hids
        have hrest := ih _ _ hnd.2 hids2 h
        simp only [addStockTransaction, setIngredientQty] at hrest
        rw [hrest, List.map_map]
        refine List.map_congr_left ?_
        intro r hrmem
        by_cases hr : r.id = g
        · have hingmem : ing ∈ db.ingredients := List.mem_of_find?_eq_some hl
          have hingid : ing.id = g := lookupIngredient_mem db g ing hl
          have hre : r = ing :=
            List.inj_on_of_nodup_map hids hrmem hingmem (by rw [hr, hingid])
          subst hre
          have hg0 : usageGet rest g = 0 :=
            usageGet_eq_zero_of_not_mem rest g hnd.1
          simp [Function.comp, usageGet, hingid, hg0]
        · have hr2 : ¬ g = r.id := fun hh => hr hh.symm
          simp [Function.comp, hr, usageGet, hr2]

theorem restoreUsage_frame (oid : Nat) (us : UsageMap) :
    ∀ db db', restoreUsage db oid us = .ok db' →
      db' = { db with ingredients := db'.ingredients,
                      stock_transactions := db'.stock_transactions } := by
  induction us with
  | nil => intro db db' h; cases h; rfl
  | cons p rest ih =>
    intro db db' h
    rcases p with ⟨g, qty⟩
    unfold restoreUsage at h
    split at h
    · cases h
    · have := ih _ _ h
      rw [this]
      rfl

theorem restoreUsage_transactions (oid : Nat) (us : UsageMap) :
    ∀ db db', restoreUsage db oid us = .ok db' →
      db'.stock_transactions = db.stock_transactions ++
        us.map (fun p =>
          (⟨p.1, p.2, "addition", some oid,
            "Order cancellation stock restoration"⟩ : StockTransactionRow)) := by
  induction us with
  | nil => intro db db' h; cases h; simp
  | cons p rest ih =>
    intro db db' h
    rcases p with ⟨g, qty⟩
    unfold restoreUsage at h
    split at h
    · cases h
    · have := ih _ _ h
      simp only [addStockTransaction, setIngredientQty] at this
      simp [this]

theorem restoreUsage_ingredients (oid : Nat) (us : UsageMap) :
    ∀ db db', (us.map Prod.fst).Nodup →
      (db.ingredients.map (fun r => r.id)).Nodup →
      restoreUsage db oid us = .ok db' →
      db'.ingredients = db.ingredients.map (fun r =>
        { r with quantity_in_stock := r.quantity_in_stock + usageGet us r.id }) := by
  induction us with
  | nil =>
    intro db db' _ _ h; cases h
    have : ∀ r : IngredientRow,
        ({ r with quantity_in_stock := r.quantity_in_stock + usageGet [] r.id }) = r := by
      intro r; simp [usageGet]
    simp [this]
  | cons p rest ih =>
    intro db db' hnd hids h
    rcases p with ⟨g, qty⟩
    unfold restoreUsage at h
    split at h
    · cases h
    · rename_i ing hl
      simp only [List.map_cons, List.nodup_cons] at hnd
      have hids2 :
          (((addStockTransaction
              (setIngredientQty db g (ing.quantity_in_stock + qty))
              ⟨g, qty, "addition", some oid,
                "Order cancellation stock restoration"⟩).ingredients).map
            (fun r => r.id)).Nodup := by
        simpa [addStockTransaction, setIngredientQty_ids] using hids
      have hrest := ih _ _ hnd.2 hids2 h
      simp only [addStockTransaction, setIngredientQty] at hrest
      rw [hrest, List.map_map]
      refine List.map_congr_left ?_
      intro r hrmem
      by_cases hr : r.id = g
      · have hingmem : ing ∈ db.ingredients := List.mem_of_find?_eq_some hl
        have hingid : ing.id = g := lookupIngredient_mem db g ing hl
        have hre : r = ing :=
          List.inj_on_of_nodup_map hids hrmem hingmem (by rw [hr, hingid])
        subst hre
        have hg0 : usageGet rest g = 0 :=
          usageGet_eq_zero_of_not_mem rest g hnd.1
        simp [Function.comp, usageGet, hingid, hg0]
      · have hr2 : ¬ g = r.id := fun hh => hr hh.symm
        simp [Function.comp, hr, usageGet, hr2]

theorem addMappings_keys_nodup (rows : List IngredientMapRow) (m : UsageMap)
    (mult : Rat) (h : (m.map Prod.fst).Nodup) :
    ((addMappings m rows mult).map Prod.fst).Nodup := by
  induction rows generalizing m with
  | nil => simpa [addMappings] using h
  | cons r rest ih =>
    simp only [addMappings, List.foldl_cons] at ih ⊢
    exact ih _ (usageAdd_keys_nodup m r.ingredient_id (r.quantity * mult) h)

theorem usageOfItem_keys_nodup (db : Db) (m : UsageMap) (it : OrderItemRow)
    (h : (m.map Prod.fst).Nodup) :
    ((usageOfItem db m it).map Prod.fst).Nodup := by
  have hstep : ∀ (m0 : UsageMap) (table : List IngredientMapRow) (x : Option Nat)
      (mult : Rat), (m0.map Prod.fst).Nodup →
      ((stepOwner m0 table x mult).map Prod.fst).Nodup := by
    intro m0 table x mult hm
    cases x with
    | none => exact hm
    | some i => exact addMappings_keys_nodup _ _ _ hm
  exact hstep _ _ _ _ (hstep _ _ _ _ (hstep _ _ _ _ h))

theorem computeIngredientUsageApprove_keys_nodup (db : Db)
    (items : List OrderItemRow) (opts : List BreakfastOrderOptionRow) :
    ((computeIngredientUsageApprove db items opts).map Prod.fst).Nodup := by
  unfold computeIngredientUsageApprove
  have hitems : ∀ m : UsageMap, (m.map Prod.fst).Nodup →
      (((items.foldl (usageOfItem db) m)).map Prod.fst).Nodup := by
    induction items with
    | nil => intro m hm; simpa using hm
    | cons it rest ih =>
      intro m hm
      simp only [List.foldl_cons]
      exact ih _ (usageOfItem_keys_nodup db m it hm)
  have hopts : ∀ (os : List BreakfastOrderOptionRow) (m : UsageMap),
      (m.map Prod.fst).Nodup →
      ((os.foldl
        (fun acc o =>
          addMappings acc
            (mappingsFor db.breakfast_option_ingredients o.breakfast_option_id) 1) m).map
        Prod.fst).Nodup := by
    intro os
    induction os with
    | nil => intro m hm; simpa using hm
    | cons o rest ih =>
      intro m hm
      simp only [List.foldl_cons]
      exact ih _ (addMappings_keys_nodup _ _ _ hm)
  exact hopts opts _ (hitems [] (by simp))

theorem deductUsage_nonneg (oid : Nat) (us : UsageMap) :
    ∀ db db', (∀ r ∈ db.ingredients, 0 ≤ r.quantity_in_stock) →
      deductUsage db oid us = .ok db' →
      ∀ r ∈ db'.ingredients, 0 ≤ r.quantity_in_stock := by
  induction us with
  | nil => intro db db' hpos h; cases h; exact hpos
  | cons p rest ih =>
    intro db db' hpos h
    rcases p with ⟨g, required⟩
    unfold deductUsage at h
    split at h
    · cases h
    · rename_i ing hl
      split at h
      · cases h
      · rename_i hq
        refine ih _ _ ?_ h
        intro r hr
        simp only [addStockTransaction, setIngredientQty, List.mem_map] at hr
        rcases hr with ⟨r0, hr0, hr0e⟩
        by_cases hid : r0.id = g
        · rw [if_pos hid] at hr0e
          rw [← hr0e]
          simp only []
          linarith [not_lt.mp hq]
        · rw [if_neg hid] at hr0e
          rw [← hr0e]
          exact hpos r0 hr0

theorem deductUsage_insufficient (oid : Nat) (us : UsageMap) :
    ∀ db nm rq av, (us.map Prod.fst).Nodup →
      deductUsage db oid us = .error (.insufficientStock nm rq av) →
      ∃ g r, (g, rq) ∈ us ∧ lookupIngredient db g = some r ∧ r.name = nm ∧
        r.quantity_in_stock = av ∧ av < rq := by
  induction us with
  | nil => intro db nm rq av _ h; cases h
  | cons p rest ih =>
    intro db nm rq av hnd h
    rcases p with ⟨g, required⟩
    unfold deductUsage at h
    split at h
    · cases h
    · rename_i ing hl
      split at h
      · rename_i hq
        cases h
        exact ⟨g, ing, by simp, hl, rfl, rfl, hq⟩
      · rename_i hq
        simp only [List.map_cons, List.nodup_cons] at hnd
        rcases ih _ nm rq av hnd.2 h with ⟨g', r', hmem, hlook, hnm, hav, hlt⟩
        have hg' : g' ∈ rest.map Prod.fst :=
          List.mem_map.mpr ⟨(g', rq), hmem, rfl⟩
        have hgg : ¬ g' = g := fun hgg => hnd.1 (hgg ▸ hg')
        refine ⟨g', r', List.mem_cons_of_mem _ hmem, ?_, hnm, hav, hlt⟩
        rw [show lookupIngredient
              (addStockTransaction (setIngredientQty db g (ing.quantity_in_stock - required))
                ⟨g, -required, "deduction", some oid, "Order approval"⟩) g' =
            lookupIngredient (setIngredientQty db g (ing.quantity_in_stock - required)) g'
          from rfl, lookupIngredient_setIngredientQty] at hlook
        cases hl2 : lookupIngredient db g' with
        | none => rw [hl2] at hlook; cases hlook
        | some r0 =>
          rw [hl2] at hlook
          have hid : r0.id = g' := lookupIngredient_mem db g' r0 hl2
          simp only [Option.map_some'] at hlook
          rw [if_neg (by rw [hid]; exact hgg)] at hlook
          cases hlook
          rfl

theorem findOrder_mem_id (db : Db) (oid : Nat) (o : OrderRow)
    (h : findOrder db oid = some o) : o.id = oid := by
  have := List.find?_some h
  simpa using this

theorem setOrderApproved_mem (db : Db) (oid : Nat) (b : Bool) (s : String) :
    ∀ o' ∈ (setOrderApproved db oid b s).orders, o'.id = oid →
      o'.approved = b ∧ o'.status = s := by
  intro o' h hid
  simp only [setOrderApproved, List.mem_map] at h
  rcases h with ⟨o0, ho0, rfl⟩
  by_cases h0 : o0.id = oid
  · simp [h0]
  · rw [if_neg h0] at hid ⊢
    exact absurd hid h0

theorem approveOrder_ok_state (db : Db) (oid : Nat) (db₁ : Db)
    (h : approveOrder true db oid = (.ok (), db₁)) :
    ∃ o dbd, findOrder db oid = some o ∧
      ¬ (o.approved ∧ o.status ≠ "cancelled") ∧ hasDeduction db oid = false ∧
      deductUsage db oid
        (computeIngredientUsageApprove db (orderItemsOf db oid)
          (breakfastOptionsOf db oid)) = .ok dbd ∧
      db₁ = setOrderApproved dbd oid true "preparing" := by
  unfold approveOrder at h
  rw [if_neg (by simp)] at h
  split at h
  · simp at h
  · rename_i o hfind
    split at h
    · simp at h
    · rename_i happ
      split at h
      · simp at h
      · rename_i hded
        split at h
        · simp at h
        · rename_i dbd hdeduct
          cases h
          exact ⟨o, dbd, hfind, happ, by simpa using hded, hdeduct, rfl⟩

theorem approveOrder_snd (db : Db) (oid : Nat) :
    (approveOrder true db oid).2 = db ∨
    ∃ dbd, deductUsage db oid
        (computeIngredientUsageApprove db (orderItemsOf db oid)
          (breakfastOptionsOf db oid)) = .ok dbd ∧
      (approveOrder true db oid).2 = setOrderApproved dbd oid true "preparing" := by
  unfold approveOrder
  rw [if_neg (by simp)]
  split
  · left; rfl
  · split
    · left; rfl
    · split
      · left; rfl
      · split
        · left; rfl
        · rename_i dbd hded
          right; exact ⟨dbd, hded, rfl⟩

theorem approveOrder_error (db : Db) (oid : Nat) (e : OrderError) (db' : Db)
    (h : approveOrder true db oid = (.error e, db')) : db' = db := by
  unfold approveOrder at h
  rw [if_neg (by simp)] at h
  split at h
  · cases h; rfl
  · split at h
    · cases h; rfl
    · split at h
      · cases h; rfl
      · split at h
        · cases h; rfl
        · simp at h

theorem approveOrder_nonneg (db : Db) (oid : Nat)
    (hpos : ∀ r ∈ db.ingredients, 0 ≤ r.quantity_in_stock) :
    ∀ r ∈ (approveOrder true db oid).2.ingredients, 0 ≤ r.quantity_in_stock := by
  rcases approveOrder_snd db oid with h | ⟨dbd, hded, h⟩
  · rw [h]; exact hpos
  · rw [h]
    exact deductUsage_nonneg _ _ db dbd hpos hded

theorem approveOrder_insufficient (db : Db) (oid : Nat) (nm : String)
    (rq av : Rat) (db' : Db)
    (h : approveOrder true db oid = (.error (.insufficientStock nm rq av), db')) :
    db' = db ∧ ∃ g r, lookupIngredient db g = some r ∧ r.name = nm ∧
      r.quantity_in_stock = av ∧ av < rq := by
  refine ⟨approveOrder_error _ _ _ _ h, ?_⟩
  unfold approveOrder at h
  rw [if_neg (by simp)] at h
  split at h
  · simp at h
  · split at h
    · simp at h
    · split at h
      · simp at h
      · split at h
        · rename_i e hded
          have he : e = .insufficientStock nm rq av := by
            have := congrArg Prod.fst h
            simpa using this
          subst he
          rcases deductUsage_insufficient oid _ db nm rq av
              (computeIngredientUsageApprove_keys_nodup db _ _) hded with
            ⟨g, r, _, hl, hnm, hav, hlt⟩
          exact ⟨g, r, hl, hnm, hav, hlt⟩
        · simp at h

/-- C4: the ingredient requirement map is computed by one and the same
algorithm in the auto-approval, explicit-approval and restoration paths, and
for every ingredient it equals the sum over all order lines of the per-unit
menu-item, primary-supplement and breakfast quantities multiplied by the
line's quantity, plus each selected breakfast option's quantities exactly
once (not multiplied by quantity), merged across items. -/
theorem C4_ingredient_map_characterization :
    (computeIngredientUsageApprove = computeIngredientUsageAutoApprove ∧
     computeIngredientUsageApprove = computeIngredientUsageCancel) ∧
    ∀ (db : Db) (items : List OrderItemRow) (opts : List BreakfastOrderOptionRow)
      (g : Nat),
      usageGet (computeIngredientUsageApprove db items opts) g =
        (items.map (itemRequires db g)).sum +
        (opts.map (fun o =>
          mapTotal db.breakfast_option_ingredients o.breakfast_option_id g)).sum := by
  refine ⟨⟨rfl, rfl⟩, ?_⟩
  intro db items opts g
  unfold computeIngredientUsageApprove
  rw [usageGet_optsFold, usageGet_itemsFold]
  simp [usageGet]

/-- C1: after a successful approval, a second Approve call fails with
`AlreadyApproved` and leaves the ingredients table and the stock-transaction
ledger exactly as the first call left them; moreover `AlreadyApproved` fires
on any approved non-cancelled order, and `AlreadyDeducted` fires when a
`deduction` stock transaction already exists for the order, each returning
the state unchanged. -/
theorem C1_approve_idempotent (db : Db) (oid : Nat) (db₁ : Db)
    (h : approveOrder true db oid = (.ok (), db₁)) :
    (approveOrder true db₁ oid = (.error .alreadyApproved, db₁) ∧
      (approveOrder true db₁ oid).2.ingredients = db₁.ingredients ∧
      (approveOrder true db₁ oid).2.stock_transactions = db₁.stock_transactions) ∧
    (∀ (db0 : Db) (o : OrderRow), findOrder db0 oid = some o →
      o.approved = true → o.status ≠ "cancelled" →
      approveOrder true db0 oid = (.error .alreadyApproved, db0)) ∧
    (∀ (db0 : Db) (o : OrderRow), findOrder db0 oid = some o →
      ¬ (o.approved ∧ o.status ≠ "cancelled") → hasDeduction db0 oid = true →
      approveOrder true db0 oid = (.error .alreadyDeducted, db0)) := by
  have hgen : ∀ (db0 : Db) (o : OrderRow), findOrder db0 oid = some o →
      o.approved = true → o.status ≠ "cancelled" →
      approveOrder true db0 oid = (.error .alreadyApproved, db0) := by
    intro db0 o hf ha hs
    unfold approveOrder
    rw [if_neg (by simp)]
    simp only [hf]
    rw [if_pos ⟨ha, hs⟩]
  have hded : ∀ (db0 : Db) (o : OrderRow), findOrder db0 oid = some o →
      ¬ (o.approved ∧ o.status ≠ "cancelled") → hasDeduction db0 oid = true →
      approveOrder true db0 oid = (.error .alreadyDeducted, db0) := by
    intro db0 o hf ha hd
    unfold approveOrder
    rw [if_neg (by simp)]
    simp only [hf]
    rw [if_neg ha, if_pos hd]
  rcases approveOrder_ok_state db oid db₁ h with
    ⟨o, dbd, hfind, _, _, hdeduct, hdb1⟩
  have hframe := deductUsage_frame oid _ db dbd hdeduct
  have hfod : findOrder dbd oid = findOrder db oid := by
    unfold findOrder
    rw [hframe]
  have hid : o.id = oid := findOrder_mem_id db oid o hfind
  have hfind1 : findOrder db₁ oid =
      some { o with approved := true, status := "preparing" } := by
    rw [hdb1, findOrder_setOrderApproved, hfod, hfind]
    simp [hid]
  have hsecond : approveOrder true db₁ oid = (.error .alreadyApproved, db₁) :=
    hgen db₁ { o with approved := true, status := "preparing" } hfind1 rfl
      (fun hc =>
        absurd (show ("preparing" : String) = "cancelled" from hc) (by decide))
  exact ⟨⟨hsecond, by rw [hsecond], by rw [hsecond]⟩, hgen, hded⟩

/-- C10: `PUT /orders/:id` with `approved = 1` by an admin or server sets the
approved flag and status `preparing`, touches neither the ingredients table
nor the stock-transaction ledger, and performs no idempotency check:
repeating the call succeeds again with the same effect. -/
theorem C10_put_approved_no_stock_effect (db : Db) (oid : Nat) (o : OrderRow)
    (hfind : findOrder db oid = some o) :
    ∃ db', putOrder true db oid 1 = (.ok (), db') ∧
      (∀ o' ∈ db'.orders, o'.id = oid → o'.approved = true ∧ o'.status = "preparing") ∧
      db'.ingredients = db.ingredients ∧
      db'.stock_transactions = db.stock_transactions ∧
      ∃ db'', putOrder true db' oid 1 = (.ok (), db'') ∧
        db''.ingredients = db.ingredients ∧
        db''.stock_transactions = db.stock_transactions ∧
        (∀ o' ∈ db''.orders, o'.id = oid →
          o'.approved = true ∧ o'.status = "preparing") := by
  have hstep : ∀ (db0 : Db) (o0 : OrderRow), findOrder db0 oid = some o0 →
      putOrder true db0 oid 1 = (.ok (), setOrderApproved db0 oid true "preparing") := by
    intro db0 o0 hf
    unfold putOrder
    rw [if_neg (by simp), if_neg (by simp)]
    simp only [hf]
    norm_num
  have h1 := hstep db o hfind
  have hid : o.id = oid := findOrder_mem_id db oid o hfind
  have hfind1 : findOrder (setOrderApproved db oid true "preparing") oid =
      some { o with approved := true, status := "preparing" } := by
    rw [findOrder_setOrderApproved, hfind]
    simp [hid]
  have h2 := hstep _ _ hfind1
  refine ⟨_, h1, setOrderApproved_mem db oid true "preparing", rfl, rfl,
    _, h2, rfl, rfl, setOrderApproved_mem _ oid true "preparing"⟩

theorem computeUsage_congr (db db' : Db)
    (h1 : db.menu_item_ingredients = db'.menu_item_ingredients)
    (h2 : db.supplement_ingredients = db'.supplement_ingredients)
    (h3 : db.breakfast_ingredients = db'.breakfast_ingredients)
    (h4 : db.breakfast_option_ingredients = db'.breakfast_option_ingredients)
    (items : List OrderItemRow) (opts : List BreakfastOrderOptionRow) :
    computeIngredientUsageApprove db items opts =
      computeIngredientUsageApprove db' items opts := by
  unfold computeIngredientUsageApprove
  have hio : usageOfItem db = usageOfItem db' := by
    funext m it
    unfold usageOfItem
    rw [h1, h2, h3]
  rw [hio, h4]

theorem deductUsage_keys_present (oid : Nat) (us : UsageMap) :
    ∀ db db', deductUsage db oid us = .ok db' →
      ∀ p ∈ us, (lookupIngredient db p.1).isSome := by
  induction us with
  | nil => intro db db' _ p hp; cases hp
  | cons q rest ih =>
    intro db db' h p hp
    rcases q with ⟨g, required⟩
    unfold deductUsage at h
    split at h
    · cases h
    · rename_i ing hl
      split at h
      · cases h
      · rcases List.mem_cons.mp hp with heq | hp'
        · rw [heq]
          simp [hl]
        · have hrec := ih _ _ h p hp'
          have hrec2 :
              (lookupIngredient
                (setIngredientQty db g (ing.quantity_in_stock - required)) p.1).isSome :=
            hrec
          rw [lookupIngredient_setIngredientQty] at hrec2
          cases hx : lookupIngredient db p.1 with
          | none => rw [hx] at hrec2; simp at hrec2
          | some r0 => simp

theorem restoreUsage_total (oid : Nat) (us : UsageMap) :
    ∀ db, (∀ p ∈ us, (lookupIngredient db p.1).isSome) →
      ∃ db', restoreUsage db oid us = .ok db' := by
  induction us with
  | nil => intro db _; exact ⟨db, rfl⟩
  | cons q rest ih =>
    intro db hall
    rcases q with ⟨g, qty⟩
    have h0 := hall (g, qty) (by simp)
    cases hl : lookupIngredient db g with
    | none => rw [hl] at h0; simp at h0
    | some ing =>
      have hrec : ∀ p ∈ rest,
          (lookupIngredient
            (addStockTransaction (setIngredientQty db g (ing.quantity_in_stock + qty))
              ⟨g, qty, "addition", some oid,
                "Order cancellation stock restoration"⟩) p.1).isSome := by
        intro p hp
        have hmem := hall p (List.mem_cons_of_mem _ hp)
        show (lookupIngredient
          (setIngredientQty db g (ing.quantity_in_stock + qty)) p.1).isSome
        rw [lookupIngredient_setIngredientQty]
        cases hx : lookupIngredient db p.1 with
        | none => rw [hx] at hmem; simp at hmem
        | some r0 => simp
      rcases ih _ hrec with ⟨db', hdb'⟩
      refine ⟨db', ?_⟩
      unfold restoreUsage
      simp only [hl]
      exact hdb'

/-- C3: cancelling with `restoreStock = true` after a successful approval
restores every ingredient to its pre-approval stock and writes one
`addition` stock transaction per deducted ingredient with reason
"Order cancellation stock restoration"; and on any non-cancelled approved
order that already has such a restoration row, cancellation fails with
`AlreadyRestored`, returning the state unchanged (the order is not
cancelled and stock is untouched). -/
theorem C3_cancel_restoration_bounded (db : Db) (oid : Nat) (db₁ : Db)
    (hids : (db.ingredients.map (fun r => r.id)).Nodup)
    (hnoprior : hasRestoration db oid = false)
    (hA : approveOrder true db oid = (.ok (), db₁)) :
    (∃ db₂, cancelOrder true db₁ oid true = (.ok (), db₂) ∧
      db₂.ingredients = db.ingredients ∧
      db₂.stock_transactions = db₁.stock_transactions ++
        (computeIngredientUsageApprove db (orderItemsOf db oid)
          (breakfastOptionsOf db oid)).map
          (fun p => (⟨p.1, p.2, "addition", some oid,
            "Order cancellation stock restoration"⟩ : StockTransactionRow))) ∧
    (∀ (db0 : Db) (o : OrderRow), findOrder db0 oid = some o →
      o.status ≠ "cancelled" → o.approved = true → hasRestoration db0 oid = true →
      cancelOrder true db0 oid true = (.error .alreadyRestored, db0)) := by
  have hgen2 : ∀ (db0 : Db) (o : OrderRow), findOrder db0 oid = some o →
      o.status ≠ "cancelled" → o.approved = true → hasRestoration db0 oid = true →
      cancelOrder true db0 oid true = (.error .alreadyRestored, db0) := by
    intro db0 o hf hs ha hr
    unfold cancelOrder
    rw [if_neg (by simp)]
    simp only [hf]
    rw [if_neg hs, if_pos (⟨trivial, ha⟩ : True ∧ o.approved = true), if_pos hr]
  refine ⟨?_, hgen2⟩
  rcases approveOrder_ok_state db oid db₁ hA with
    ⟨o, dbd, hfind, _, hdedfalse, hdeduct, hdb1⟩
  have husnd := computeIngredientUsageApprove_keys_nodup db
    (orderItemsOf db oid) (breakfastOptionsOf db oid)
  have hframe := deductUsage_frame oid _ db dbd hdeduct
  have htr := deductUsage_transactions oid _ db dbd hdeduct
  have hingd := deductUsage_ingredients oid _ db dbd husnd hids hdeduct
  have hid : o.id = oid := findOrder_mem_id db oid o hfind
  have hfod : findOrder dbd oid = findOrder db oid := by
    unfold findOrder
    rw [hframe]
  have hfind1 : findOrder db₁ oid =
      some { o with approved := true, status := "preparing" } := by
    rw [hdb1, findOrder_setOrderApproved, hfod, hfind]
    simp [hid]
  have hing1 : db₁.ingredients = db.ingredients.map (fun r =>
      { r with quantity_in_stock := r.quantity_in_stock -
          usageGet (computeIngredientUsageApprove db (orderItemsOf db oid)
            (breakfastOptionsOf db oid)) r.id }) := by
    rw [hdb1]
    exact hingd
  have htr1 : db₁.stock_transactions = db.stock_transactions ++
      (computeIngredientUsageApprove db (orderItemsOf db oid)
        (breakfastOptionsOf db oid)).map
        (fun p => (⟨p.1, -p.2, "deduction", some oid,
          "Order approval"⟩ : StockTransactionRow)) := by
    rw [hdb1]
    exact htr
  have hids1 : (db₁.ingredients.map (fun r => r.id)).Nodup := by
    rw [hing1, List.map_map]
    have : ((fun r : IngredientRow => r.id) ∘ (fun r =>
        { r with quantity_in_stock := r.quantity_in_stock -
            usageGet (computeIngredientUsageApprove db (orderItemsOf db oid)
              (breakfastOptionsOf db oid)) r.id })) =
        fun r : IngredientRow => r.id := by
      funext r; rfl
    rw [this]
    exact hids
  have hrest1 : hasRestoration db₁ oid = false := by
    unfold hasRestoration
    rw [htr1, List.any_append]
    unfold hasRestoration at hnoprior
    rw [hnoprior, Bool.false_or, List.any_eq_false]
    intro t ht
    rcases List.mem_map.mp ht with ⟨p, _, rfl⟩
    intro hcontra
    simp only [Bool.and_eq_true, decide_eq_true_eq] at hcontra
    exact absurd hcontra.2 (by decide)
  have hoi1 : orderItemsOf db₁ oid = orderItemsOf db oid := by
    unfold orderItemsOf
    rw [hdb1]
    show (dbd.order_items.filter _) = _
    rw [hframe]
  have hboo1 : breakfastOptionsOf db₁ oid = breakfastOptionsOf db oid := by
    unfold breakfastOptionsOf
    rw [hdb1]
    show (dbd.breakfast_order_options.filter
      (fun o => dbd.order_items.any _)) = _
    rw [hframe]
  have husage : computeIngredientUsageCancel db₁ (orderItemsOf db₁ oid)
      (breakfastOptionsOf db₁ oid) =
      computeIngredientUsageApprove db (orderItemsOf db oid)
        (breakfastOptionsOf db oid) := by
    show computeIngredientUsageApprove db₁ (orderItemsOf db₁ oid)
      (breakfastOptionsOf db₁ oid) = _
    rw [hoi1, hboo1]
    refine computeUsage_congr db₁ db ?_ ?_ ?_ ?_ _ _
    all_goals rw [hdb1]
    all_goals first
      | (show dbd.menu_item_ingredients = _; rw [hframe])
      | (show dbd.supplement_ingredients = _; rw [hframe])
      | (show dbd.breakfast_ingredients = _; rw [hframe])
      | (show dbd.breakfast_option_ingredients = _; rw [hframe])
  have hpresent : ∀ p ∈ computeIngredientUsageApprove db (orderItemsOf db oid)
      (breakfastOptionsOf db oid), (lookupIngredient db₁ p.1).isSome := by
    intro p hp
    have h0 := deductUsage_keys_present oid _ db dbd hdeduct p hp
    unfold lookupIngredient
    rw [hing1]
    rw [find?_map_pred _ _ _ (by intro a; by_cases hh : a.id = p.1 <;> simp [hh])]
    unfold lookupIngredient at h0
    cases hx : db.ingredients.find? (fun r => r.id = p.1) with
    | none => rw [hx] at h0; simp at h0
    | some r0 => simp
  rcases restoreUsage_total oid _ db₁ hpresent with ⟨dbr, hrestok⟩
  have hrframe := restoreUsage_frame oid _ db₁ dbr hrestok
  have hringr := restoreUsage_ingredients oid _ db₁ dbr husnd hids1 hrestok
  have hrtr := restoreUsage_transactions oid _ db₁ dbr hrestok
  have hingfinal : dbr.ingredients = db.ingredients := by
    rw [hringr, hing1, List.map_map]
    have hpt : ∀ r ∈ db.ingredients,
        ((fun r : IngredientRow =>
          { r with quantity_in_stock := r.quantity_in_stock +
              usageGet (computeIngredientUsageApprove db (orderItemsOf db oid)
                (breakfastOptionsOf db oid)) r.id }) ∘
         (fun r : IngredientRow =>
          { r with quantity_in_stock := r.quantity_in_stock -
              usageGet (computeIngredientUsageApprove db (orderItemsOf db oid)
                (breakfastOptionsOf db oid)) r.id })) r = id r := by
      intro r _
      simp [Function.comp]
    rw [List.map_congr_left hpt, List.map_id]
  cases hcase : computeIngredientUsageApprove db (orderItemsOf db oid)
      (breakfastOptionsOf db oid) with
  | nil =>
    have hdbd : dbd = db := by
      rw [hcase] at hdeduct
      cases hdeduct
      rfl
    have hdd1 : hasDeduction db₁ oid = false := by
      unfold hasDeduction
      rw [htr1, hcase]
      unfold hasDeduction at hdedfalse
      simpa using hdedfalse
    have hcancel : cancelOrder true db₁ oid true =
        (.ok (), setOrderApproved db₁ oid false "cancelled") := by
      unfold cancelOrder
      rw [if_neg (by simp)]
      simp only [hfind1]
      rw [if_neg (fun hc =>
        absurd (show ("preparing" : String) = "cancelled" from hc) (by decide))]
      rw [if_pos (⟨trivial, trivial⟩ : True ∧ True)]
      rw [hrest1]
      rw [if_neg (by simp)]
      rw [hdd1]
      rw [if_pos (by simp)]
    refine ⟨setOrderApproved db₁ oid false "cancelled", hcancel, ?_, ?_⟩
    · show db₁.ingredients = db.ingredients
      rw [hing1, hcase]
      have : ∀ r ∈ db.ingredients,
          ({ r with quantity_in_stock :=
            r.quantity_in_stock - usageGet [] r.id } : IngredientRow) = id r := by
        intro r _
        simp [usageGet]
      rw [List.map_congr_left this, List.map_id]
    · show db₁.stock_transactions = _
      simp
  | cons p0 usrest =>
    have hdd1 : hasDeduction db₁ oid = true := by
      unfold hasDeduction
      rw [htr1, hcase, List.any_append]
      simp
    have hcancel : cancelOrder true db₁ oid true =
        (.ok (), setOrderApproved dbr oid false "cancelled") := by
      unfold cancelOrder
      rw [if_neg (by simp)]
      simp only [hfind1]
      rw [if_neg (fun hc =>
        absurd (show ("preparing" : String) = "cancelled" from hc) (by decide))]
      rw [if_pos (⟨trivial, trivial⟩ : True ∧ True)]
      rw [hrest1]
      rw [if_neg (by simp)]
      rw [hdd1]
      rw [if_neg (by simp)]
      rw [husage, hrestok]
    refine ⟨setOrderApproved dbr oid false "cancelled", hcancel, ?_, ?_⟩
    · show dbr.ingredients = db.ingredients
      exact hingfinal
    · show dbr.stock_transactions = _
      rw [← hcase]
      exact hrtr

theorem sameCore_refl (db : Db) : sameCore db db :=
  ⟨rfl, rfl, rfl, rfl, rfl, rfl⟩

theorem purge_sameCore (db : Db) (now : Int) :
    sameCore db (purgeDeviceLimits db now) :=
  ⟨rfl, rfl, rfl, rfl, rfl, rfl⟩

theorem resolveTable_sameCore (db : Db) (t : Nat) (tr : TableRow) (db' : Db)
    (h : resolveTable db t = .ok (tr, db')) : sameCore db db' := by
  unfold resolveTable at h
  split at h
  · cases h
  · split at h
    · cases h
    · split at h
      · cases h; exact ⟨rfl, rfl, rfl, rfl, rfl, rfl⟩
      · cases h; exact sameCore_refl db

theorem tableStep_sameCore (db : Db) (ot : String) (ti : Option Nat)
    (eff : Option Nat) (db' : Db) (h : tableStep db ot ti = .ok (eff, db')) :
    sameCore db db' := by
  unfold tableStep at h
  split at h
  · split at h
    · split at h
      · cases h
      · rename_i heq
        cases h
        exact resolveTable_sameCore _ _ _ _ heq
    · cases h; exact sameCore_refl db
  · cases h; exact sameCore_refl db

theorem sameCore_trans {a b c : Db} (h1 : sameCore a b) (h2 : sameCore b c) :
    sameCore a c := by
  obtain ⟨x1, x2, x3, x4, x5, x6⟩ := h1
  obtain ⟨y1, y2, y3, y4, y5, y6⟩ := h2
  exact ⟨y1.trans x1, y2.trans x2, y3.trans x3, y4.trans x4,
    y5.trans x5, y6.trans x6⟩

/-- C7 (amended): every rejected `POST /orders` submission leaves the order
rows, order items, breakfast option selections, ingredient stocks, the
stock-transaction ledger and the notifications unchanged; the tables table
and the rate-limit rows are exempt — a rejection after the table-handling
step can leave a formerly free table marked occupied, and the purge of
expired rate-limit rows precedes the rate-limit rejection. -/
theorem C7_rejection_core_frame (now : Int) (guard : List GuardKey) (db : Db)
    (req : OrderRequest) (e : OrderError) (db' : Db) (g' : List GuardKey)
    (h : createOrder now guard db req = (.error e, db', g')) :
    sameCore db db' := by
  have hpu : sameCore db (dbAfterPurge db now req) := by
    unfold dbAfterPurge
    by_cases hs : req.isStaffRequest
    · rw [if_pos hs]; exact sameCore_refl db
    · rw [if_neg hs]; exact purge_sameCore db now
  unfold createOrder at h
  by_cases h1 : ¬ req.isStaffRequest ∧
      (req.deviceId = "unknown" ∨ req.deviceId = "" ∨
        ¬ isUuidFormat req.deviceId)
  · rw [if_pos h1] at h
    cases h; exact sameCore_refl db
  · rw [if_neg h1] at h
    split at h
    · cases h; exact hpu
    · split at h
      · cases h; exact hpu
      · split at h
        · cases h; exact hpu
        · split at h
          · cases h; exact hpu
          · split at h
            · cases h; exact hpu
            · split at h
              · cases h; exact hpu
              · split at h
                · cases h; exact hpu
                · split at h
                  · cases h; exact hpu
                  · split at h
                    · cases h; exact hpu
                    · split at h
                      · cases h; exact hpu
                      · split at h
                        · cases h; exact hpu
                        · rename_i eff db2 heq
                          split at h
                          · cases h
                            exact sameCore_trans hpu
                              (tableStep_sameCore _ _ _ _ _ heq)
                          · split at h
                            · cases h
                              exact sameCore_trans hpu
                                (tableStep_sameCore _ _ _ _ _ heq)
                            · simp at h

/-- C5: for a well-shaped menu-item cart line whose item exists, is
available, and whose requested supplements are all found, the expected unit
price is the sale price if set (else the regular price) plus the sum of the
requested supplements' additional prices; a client unit price differing
from it by more than 0.01 is rejected with `PriceMismatch` carrying the
item id and both values, and otherwise the line contributes
`quantity × expected` to the running cart total. -/
theorem C5_menu_price_verification (db : Db) (l : MenuLine) (m : MenuItemRow)
    (hid : l.item_id ≠ 0) (hqty : l.quantity ≠ 0) (hup : 0 < l.unit_price)
    (hfind : findMenuItem db l.item_id = some m) (hav : m.availability = true)
    (hsupp : (supplementRowsFor db l.item_id (lineSupplementIds l)).length =
      (lineSupplementIds l).length) :
    ((|l.unit_price - (menuLineBase m +
        ((supplementRowsFor db l.item_id (lineSupplementIds l)).map
          (fun r => r.additional_price)).sum)| > 1/100) →
      verifyMenuLine db l = .error (.priceMismatch l.item_id
        (menuLineBase m +
          ((supplementRowsFor db l.item_id (lineSupplementIds l)).map
            (fun r => r.additional_price)).sum) l.unit_price)) ∧
    ((¬ |l.unit_price - (menuLineBase m +
        ((supplementRowsFor db l.item_id (lineSupplementIds l)).map
          (fun r => r.additional_price)).sum)| > 1/100) →
      verifyMenuLine db l = .ok ((menuLineBase m +
        ((supplementRowsFor db l.item_id (lineSupplementIds l)).map
          (fun r => r.additional_price)).sum) * l.quantity) ∧
      ∀ (acc : Rat) (rest : List MenuLine),
        verifyMenuLines db acc (l :: rest) =
          verifyMenuLines db (acc + (menuLineBase m +
            ((supplementRowsFor db l.item_id (lineSupplementIds l)).map
              (fun r => r.additional_price)).sum) * l.quantity) rest) := by
  have hbody : verifyMenuLine db l =
      (if |l.unit_price - (menuLineBase m +
          ((supplementRowsFor db l.item_id (lineSupplementIds l)).map
            (fun r => r.additional_price)).sum)| > 1/100 then
        .error (.priceMismatch l.item_id
          (menuLineBase m +
            ((supplementRowsFor db l.item_id (lineSupplementIds l)).map
              (fun r => r.additional_price)).sum) l.unit_price)
      else
        .ok ((menuLineBase m +
          ((supplementRowsFor db l.item_id (lineSupplementIds l)).map
            (fun r => r.additional_price)).sum) * l.quantity)) := by
    unfold verifyMenuLine
    rw [if_neg hid, if_neg hqty, if_neg (not_le.mpr hup)]
    simp only [hfind]
    rw [if_neg (by rw [hav]; exact fun hc => hc rfl)]
    by_cases hids : lineSupplementIds l = []
    · rw [if_neg (by rw [hids]; exact fun hc => hc rfl)]
      rw [hids]
      simp [supplementRowsFor]
    · rw [if_pos hids, if_neg (fun hc => hc hsupp)]
  constructor
  · intro hgt
    rw [hbody, if_pos hgt]
  · intro hle
    refine ⟨by rw [hbody, if_neg hle], ?_⟩
    intro acc rest
    conv_lhs => rw [verifyMenuLines]
    simp only [hbody, if_neg hle]

/-- C8: for a well-shaped breakfast cart line on an available breakfast:
(a) with no option ids supplied but required groups present, the submission
fails with `MissingRequiredGroup` listing all required groups; (b) with
option ids supplied and all found, any untouched required group fails the
submission naming the missing groups' titles; (c) with exactly one required
and one optional group and exactly one selected option from the required
group, the line is accepted (under the price policy), regardless of the
optional group. -/
theorem C8_required_group_enforcement (db : Db) (l : BreakfastLine)
    (b : BreakfastRow) (hid : l.breakfast_id ≠ 0) (hqty : l.quantity ≠ 0)
    (hup : 0 < l.unit_price) (hfind : findBreakfast db l.breakfast_id = some b)
    (hav : b.availability = true) :
    ((l.option_ids = [] →
      (fetchGroups db l.breakfast_id).filter (fun g => g.is_required) ≠ [] →
      verifyBreakfastLine db l = .error (.missingRequiredGroup l.breakfast_id
        (((fetchGroups db l.breakfast_id).filter
          (fun g => g.is_required)).map groupTitle)))) ∧
    (l.option_ids ≠ [] →
      (fetchSelectedOptions db l.breakfast_id l.option_ids).length =
        l.option_ids.length →
      ((((fetchGroups db l.breakfast_id).filter (fun g => g.is_required)).map
          (fun g => g.id)).filter (fun g =>
            ¬ g ∈ (fetchSelectedOptions db l.breakfast_id l.option_ids).map
              (fun o => o.group_id))) ≠ [] →
      verifyBreakfastLine db l = .error (.missingRequiredGroup l.breakfast_id
        (((fetchGroups db l.breakfast_id).filter (fun g =>
          g.id ∈ ((((fetchGroups db l.breakfast_id).filter
              (fun g => g.is_required)).map (fun g => g.id)).filter
            (fun g => ¬ g ∈ (fetchSelectedOptions db l.breakfast_id
              l.option_ids).map (fun o => o.group_id))))).map groupTitle))) ∧
    (∀ (gR gO : OptionGroupRow) (o : BreakfastOptionRow),
      fetchGroups db l.breakfast_id = [gR, gO] →
      gR.is_required = true → gO.is_required = false →
      fetchSelectedOptions db l.breakfast_id l.option_ids = [o] →
      l.option_ids.length = 1 →
      o.group_id = gR.id →
      ¬ l.unit_price + 1/100 < b.price + o.additional_price →
      ∃ v, verifyBreakfastLine db l = .ok v) := by
  have hpre : ∀ priced : Except OrderError Rat,
      ((if l.option_ids ≠ [] then
          (if (fetchSelectedOptions db l.breakfast_id l.option_ids).length ≠
              l.option_ids.length then
            .error (.invalidOption l.breakfast_id l.option_ids
              ((fetchSelectedOptions db l.breakfast_id l.option_ids).map
                (fun o => o.id)))
          else
            if (((fetchGroups db l.breakfast_id).filter
                (fun g => g.is_required)).map (fun g => g.id)).filter
                  (fun g => ¬ g ∈ (fetchSelectedOptions db l.breakfast_id
                    l.option_ids).map (fun o => o.group_id)) ≠ [] then
              .error (.missingRequiredGroup l.breakfast_id
                (((fetchGroups db l.breakfast_id).filter (fun g =>
                  g.id ∈ (((fetchGroups db l.breakfast_id).filter
                      (fun g => g.is_required)).map (fun g => g.id)).filter
                    (fun g => ¬ g ∈ (fetchSelectedOptions db l.breakfast_id
                      l.option_ids).map (fun o => o.group_id)))).map groupTitle))
            else
              .ok (b.price + ((fetchSelectedOptions db l.breakfast_id
                l.option_ids).map (fun o => o.additional_price)).sum))
        else
          if (fetchGroups db l.breakfast_id).filter
              (fun g => g.is_required) ≠ [] then
            .error (.missingRequiredGroup l.breakfast_id
              (((fetchGroups db l.breakfast_id).filter
                (fun g => g.is_required)).map groupTitle))
          else .ok b.price) = priced) →
      verifyBreakfastLine db l =
        (match priced with
        | .error e => .error e
        | .ok expected =>
          if l.unit_price + 1/100 < expected then
            .error (.breakfastPriceBelow l.breakfast_id expected l.unit_price)
          else if l.unit_price > expected then .ok l.unit_price
          else .ok expected) := by
    intro priced hpriced
    unfold verifyBreakfastLine
    rw [if_neg hid, if_neg hqty, if_neg (not_le.mpr hup)]
    simp only [hfind]
    rw [if_neg (by rw [hav]; exact fun hc => hc rfl)]
    rw [hpriced]
  refine ⟨?_, ?_, ?_⟩
  · intro ho hreq
    rw [hpre _ rfl]
    rw [if_neg (fun hc => hc ho), if_pos hreq]
  · intro ho hcount hmiss
    rw [hpre _ rfl]
    rw [if_pos ho, if_neg (fun hc => hc hcount), if_pos hmiss]
  · intro gR gO o hgroups hgR hgO hopts hlen hgrp hprice
    have ho : l.option_ids ≠ [] := by
      intro hc
      rw [hc] at hlen
      simp at hlen
    rw [hpre _ rfl]
    rw [if_pos ho]
    rw [if_neg (by rw [hopts, hlen]; exact fun hc => hc rfl)]
    rw [hgroups, hopts]
    have hfilter : ([gR, gO].filter (fun g => g.is_required)) = [gR] := by
      simp [List.filter_cons, hgR, hgO]
    rw [hfilter]
    have hmiss0 : (([gR].map (fun g => g.id)).filter (fun g =>
        ¬ g ∈ [o].map (fun o => o.group_id))) = [] := by
      simp [hgrp]
    rw [hmiss0]
    rw [if_neg (fun hc => hc rfl)]
    have hsum : ([o].map (fun o => o.additional_price)).sum =
        o.additional_price := by simp
    rw [hsum]
    by_cases hgt : l.unit_price > b.price + o.additional_price
    · exact ⟨l.unit_price, by simp only [if_neg hprice, if_pos hgt]⟩
    · exact ⟨b.price + o.additional_price,
        by simp only [if_neg hprice, if_neg hgt]⟩

theorem foldl_add_sum {α : Type} (f : α → Rat) (xs : List α) :
    ∀ a : Rat, xs.foldl (fun acc x => acc + f x) a = a + (xs.map f).sum := by
  induction xs with
  | nil => intro a; simp
  | cons x t ih =>
    intro a
    rw [List.foldl_cons, ih, List.map_cons, List.sum_cons]
    ring

/-- C6 (amended): when the supplied promotion is active, the promotion
overlay overrides the base total; the recomputed total applies the discount
to every menu-item line matched by the promotion (all of them when it is
store-wide), while breakfast lines always contribute their undiscounted
recomputed price. -/
theorem C6_promotion_overlay (db : Db) (now : Int) (req : OrderRequest)
    (base : Rat) (pid : Nat) (p : PromotionRow)
    (hpid : req.promotion_id = some pid)
    (hact : findActivePromotion db now pid = some p) :
    finalTotal db now req base =
      promoRecompute db p req.items req.breakfastItems ∧
    ∀ (items : List MenuLine) (bitems : List BreakfastLine),
      promoRecompute db p items bitems =
        (items.map (fun l =>
          if p.item_id = none ∨ p.item_id = some l.item_id
          then promoMenuLinePrice db l * (1 - p.discount_percentage / 100)
          else promoMenuLinePrice db l)).sum +
        (bitems.map (fun l => promoBreakfastLinePrice db l)).sum := by
  constructor
  · unfold finalTotal
    rw [hpid]
    simp only [hact]
  · intro items bitems
    simp only [promoRecompute]
    rw [foldl_add_sum (fun l => promoBreakfastLinePrice db l) bitems,
      foldl_add_sum (fun l =>
        if p.item_id = none ∨ p.item_id = some l.item_id
        then promoMenuLinePrice db l * (1 - p.discount_percentage / 100)
        else promoMenuLinePrice db l) items]
    ring

/-- C6 counterexample: with an active store-wide 50% promotion and a cart of
one breakfast line priced 10, the recomputed overlay total is 10 — the
breakfast line is NOT discounted (the claim demands 5) — and the submission
carrying the undiscounted total 10 is accepted. -/
theorem C6_counterexample :
    findActivePromotion exDb6 0 5 = some exPromo6 ∧
    exPromo6.item_id = none ∧
    promoRecompute exDb6 exPromo6 exReq6.items exReq6.breakfastItems = 10 ∧
    promoRecompute exDb6 exPromo6 exReq6.items exReq6.breakfastItems ≠
      10 * (1 - exPromo6.discount_percentage / 100) ∧
    (createOrder 0 [] exDb6 exReq6).1 = .ok 1 := by
  have hrec : promoRecompute exDb6 exPromo6 exReq6.items exReq6.breakfastItems
      = 10 := by
    simp [promoRecompute, promoBreakfastLinePrice, findBreakfast, exDb6,
      exReq6, exPromo6]
  have huuid : isUuidFormat "123e4567-e89b-12d3-a456-426614174000" = true := by
    decide
  have hblank : isBlank "s1" = false := by decide
  have hd1 : ("123e4567-e89b-12d3-a456-426614174000" = "unknown") = False := by
    simp
  have hd2 : ("123e4567-e89b-12d3-a456-426614174000" = "") = False := by simp
  refine ⟨by simp [findActivePromotion, exDb6, exPromo6], rfl, hrec, ?_, ?_⟩
  · rw [hrec, exPromo6]
    norm_num
  · have e1 : ((10 : Rat) ≤ 0) = False := by norm_num
    have e2 : ((10 : Rat) + 1 / 100 < 10) = False := by norm_num
    have e3 : ((10 : Rat) > 10) = False := by norm_num
    have e4 : (|(10 : Rat) - 10| > 1 / 100) = False := by norm_num
    have e5 : ((100 : Rat) < 0) = False := by norm_num
    simp [createOrder, dbAfterPurge, purgeDeviceLimits, recentCount,
      requestFingerprints, requestGuardKey, verifyMenuLines,
      verifyBreakfastLines, verifyBreakfastLine, findBreakfast, fetchGroups,
      breakfastMapAdd, unionOptionIds, tableStep, finalTotal,
      findActivePromotion, promoRecompute, promoBreakfastLinePrice,
      runOrderTransaction, huuid, hblank, hd1, hd2, e1, e2, e3, e4, e5,
      exDb6, exReq6, exPromo6]

/-- C7 counterexample: the submission is rejected with `TotalPriceMismatch`,
yet the persisted state has changed — the table was marked occupied before
the final total check, outside the transaction. -/
theorem C7_counterexample :
    (createOrder 0 [] exDb7 exReq7).1 = .error (.totalMismatch 9 100) ∧
    exDb7.tables = [⟨2, 7, "free"⟩] ∧
    (createOrder 0 [] exDb7 exReq7).2.1.tables = [⟨2, 7, "occupied"⟩] := by
  have huuid : isUuidFormat "123e4567-e89b-12d3-a456-426614174000" = true := by
    decide
  have hblank : isBlank "s1" = false := by decide
  have hd1 : ("123e4567-e89b-12d3-a456-426614174000" = "unknown") = False := by
    simp
  have hd2 : ("123e4567-e89b-12d3-a456-426614174000" = "") = False := by simp
  have habs : |(100 : Rat) - 9| = 91 := by
    rw [abs_of_nonneg (by norm_num : (0 : Rat) ≤ 100 - 9)]
    norm_num
  have e1 : ((9 : Rat) ≤ 0) = False := by norm_num
  have e2 : (|(9 : Rat) - 9| > 1 / 100) = False := by norm_num
  have e3 : (|(100 : Rat) - 9| > 1 / 100) = True := by rw [habs]; norm_num
  have e4 : ((100 : Rat) < 0) = False := by norm_num
  have e5 : (((100 : Rat))⁻¹ < |(100 : Rat) - 9|) = True := by
    rw [habs]; norm_num
  refine ⟨?_, rfl, ?_⟩ <;>
    simp [createOrder, dbAfterPurge, purgeDeviceLimits, recentCount,
      requestFingerprints, requestGuardKey, verifyMenuLines, verifyMenuLine,
      findMenuItem, menuLineBase, lineSupplementIds, supplementRowsFor,
      verifyBreakfastLines, tableStep, resolveTable, finalTotal,
      findActivePromotion, runOrderTransaction, huuid, hblank, hd1, hd2,
      e1, e2, e3, e4, e5, exDb7, exReq7]

theorem insertMenuRows_ingredients (oid : Nat) :
    ∀ (db : Db) (ls : List MenuLine),
      (insertMenuRows oid db ls).ingredients = db.ingredients := by
  intro db ls
  induction ls generalizing db with
  | nil => rfl
  | cons l rest ih =>
    show (insertMenuRows oid _ rest).ingredients = db.ingredients
    rw [ih]

theorem insertBreakfastRows_ingredients (oid : Nat) :
    ∀ (db : Db) (m : BreakfastMap),
      (insertBreakfastRows oid db m).ingredients = db.ingredients := by
  intro db m
  induction m generalizing db with
  | nil => rfl
  | cons e rest ih =>
    rcases e with ⟨b, e⟩
    show (insertBreakfastRows oid _ rest).ingredients = db.ingredients
    rw [ih]

theorem runOrderTransaction_nonneg (now : Int) (db0 : Db) (req : OrderRequest)
    (sid : String) (fps : List Fingerprint) (total : Rat) (bmap : BreakfastMap)
    (eff : Option Nat) (oid : Nat) (db' : Db)
    (hpos : ∀ r ∈ db0.ingredients, 0 ≤ r.quantity_in_stock)
    (h : runOrderTransaction now db0 req sid fps total bmap eff = .ok (oid, db')) :
    ∀ r ∈ db'.ingredients, 0 ≤ r.quantity_in_stock := by
  simp only [runOrderTransaction] at h
  split at h
  · split at h
    · cases h
    · rename_i db5 hded
      cases h
      show ∀ r ∈ db5.ingredients, 0 ≤ r.quantity_in_stock
      refine deductUsage_nonneg _ _ _ _ ?_ hded
      intro r0 hr0
      rw [insertBreakfastRows_ingredients, insertMenuRows_ingredients] at hr0
      split at hr0
      · exact hpos r0 hr0
      · exact hpos r0 hr0
  · cases h
    intro r hr
    rw [show ({ insertBreakfastRows (db0.nextOrderId)
        (insertMenuRows (db0.nextOrderId) _ req.items) bmap with
          notifications := _ } : Db).ingredients =
      (insertBreakfastRows (db0.nextOrderId)
        (insertMenuRows (db0.nextOrderId) _ req.items) bmap).ingredients
      from rfl] at hr
    rw [insertBreakfastRows_ingredients, insertMenuRows_ingredients] at hr
    split at hr
    · exact hpos r hr
    · exact hpos r hr

theorem createOrder_ok_state (now : Int) (guard : List GuardKey) (db : Db)
    (req : OrderRequest) (oid : Nat) (db' : Db) (g' : List GuardKey)
    (h : createOrder now guard db req = (.ok oid, db', g')) :
    ∃ (sid : String) (itemsTotal baseTotal : Rat) (bmap : BreakfastMap)
      (eff : Option Nat) (db2 : Db),
      req.session_id = some sid ∧
      verifyMenuLines (dbAfterPurge db now req) 0 req.items = .ok itemsTotal ∧
      verifyBreakfastLines (dbAfterPurge db now req) itemsTotal []
        req.breakfastItems = .ok (baseTotal, bmap) ∧
      tableStep (dbAfterPurge db now req) req.order_type req.table_id =
        .ok (eff, db2) ∧
      runOrderTransaction now db2 req sid (requestFingerprints req)
        (finalTotal db2 now req baseTotal) bmap eff = .ok (oid, db') ∧
      g' = guard ++ [requestGuardKey req sid] := by
  unfold createOrder at h
  by_cases h1 : ¬ req.isStaffRequest ∧
      (req.deviceId = "unknown" ∨ req.deviceId = "" ∨
        ¬ isUuidFormat req.deviceId)
  · rw [if_pos h1] at h
    simp at h
  · rw [if_neg h1] at h
    split at h
    · simp at h
    · split at h
      · simp at h
      · rename_i sid hsid
        split at h
        · simp at h
        · split at h
          · simp at h
          · split at h
            · simp at h
            · split at h
              · simp at h
              · split at h
                · simp at h
                · split at h
                  · simp at h
                  · split at h
                    · simp at h
                    · rename_i itemsTotal hitems
                      split at h
                      · simp at h
                      · rename_i baseTotal bmap hbreak
                        split at h
                        · simp at h
                        · rename_i eff db2 htab
                          split at h
                          · simp at h
                          · split at h
                            · simp at h
                            · rename_i oid2 db2x htrans
                              cases h
                              exact ⟨sid, itemsTotal, baseTotal, bmap, eff,
                                db2, hsid, hitems, hbreak, htab, htrans, rfl⟩

theorem createOrder_nonneg (now : Int) (guard : List GuardKey) (db : Db)
    (req : OrderRequest)
    (hpos : ∀ r ∈ db.ingredients, 0 ≤ r.quantity_in_stock) :
    ∀ r ∈ (createOrder now guard db req).2.1.ingredients,
      0 ≤ r.quantity_in_stock := by
  have hposP : ∀ r ∈ (dbAfterPurge db now req).ingredients,
      0 ≤ r.quantity_in_stock := by
    unfold dbAfterPurge
    split
    · exact hpos
    · exact hpos
  rcases hco : createOrder now guard db req with ⟨res, db', g'⟩
  rcases res with e | oid
  · have hframe := C7_rejection_core_frame now guard db req e db' g' hco
    intro r hr
    rw [hframe.2.2.1] at hr
    exact hpos r hr
  · rcases createOrder_ok_state now guard db req oid db' g' hco with
      ⟨sid, itemsTotal, baseTotal, bmap, eff, db2, _, _, _, htab, htrans, _⟩
    have hpos2 : ∀ r ∈ db2.ingredients, 0 ≤ r.quantity_in_stock := by
      intro r hr
      rw [(tableStep_sameCore _ _ _ _ _ htab).2.2.1] at hr
      exact hposP r hr
    exact runOrderTransaction_nonneg now db2 req sid _ _ bmap eff oid db'
      hpos2 htrans

/-- C2: stock never goes negative under any sequence of approvals (and under
order creation with auto-approval); a failed approval is all-or-nothing (the
state is returned unchanged on every error); and an `InsufficientStock`
failure names an actual ingredient together with its available amount, which
is genuinely below the required amount. -/
theorem C2_no_negative_stock :
    (∀ (db : Db) (ids : List Nat),
      (∀ r ∈ db.ingredients, 0 ≤ r.quantity_in_stock) →
      ∀ r ∈ (approveAll db ids).ingredients, 0 ≤ r.quantity_in_stock) ∧
    (∀ (now : Int) (guard : List GuardKey) (db : Db) (req : OrderRequest),
      (∀ r ∈ db.ingredients, 0 ≤ r.quantity_in_stock) →
      ∀ r ∈ (createOrder now guard db req).2.1.ingredients,
        0 ≤ r.quantity_in_stock) ∧
    (∀ (db : Db) (oid : Nat) (e : OrderError) (db' : Db),
      approveOrder true db oid = (.error e, db') → db' = db) ∧
    (∀ (db : Db) (oid : Nat) (nm : String) (rq av : Rat) (db' : Db),
      approveOrder true db oid = (.error (.insufficientStock nm rq av), db') →
      db' = db ∧ ∃ g r, lookupIngredient db g = some r ∧ r.name = nm ∧
        r.quantity_in_stock = av ∧ av < rq) := by
  refine ⟨?_, createOrder_nonneg, approveOrder_error, approveOrder_insufficient⟩
  intro db ids
  induction ids generalizing db with
  | nil => intro hpos; exact hpos
  | cons i rest ih =>
    intro hpos
    show ∀ r ∈ (approveAll (approveOrder true db i).2 rest).ingredients,
      0 ≤ r.quantity_in_stock
    exact ih _ (approveOrder_nonneg db i hpos)

theorem bmapQty_add (m : BreakfastMap) (b : Nat) (q : Nat) (p : Rat)
    (o : List Nat) (b' : Nat) :
    bmapQty (breakfastMapAdd m b q p o) b' =
      bmapQty m b' + (if b' = b then q else 0) := by
  induction m with
  | nil =>
    by_cases h : b' = b
    · simp [breakfastMapAdd, bmapQty, h]
    · have h2 : ¬ b = b' := fun hb => h hb.symm
      simp [breakfastMapAdd, bmapQty, h, h2]
  | cons e rest ih =>
    rcases e with ⟨b0, e0⟩
    by_cases h0 : b0 = b
    · by_cases h1 : b0 = b' <;>
        by_cases h2 : b' = b <;>
        simp_all [breakfastMapAdd, bmapQty]
    · by_cases h1 : b0 = b'
      · have h2 : ¬ b' = b := fun hc => h0 (h1.trans hc)
        simp [breakfastMapAdd, h0, bmapQty, h1, h2]
      · simp [breakfastMapAdd, h0, bmapQty, h1, ih]

theorem bmapOpts_add (m : BreakfastMap) (b : Nat) (q : Nat) (p : Rat)
    (o : List Nat) (b' : Nat) :
    bmapOpts (breakfastMapAdd m b q p o) b' =
      (if b' = b then unionOptionIds (bmapOpts m b') o else bmapOpts m b') := by
  induction m with
  | nil =>
    by_cases h : b' = b
    · simp [breakfastMapAdd, bmapOpts, h]
    · have h2 : ¬ b = b' := fun hb => h hb.symm
      simp [breakfastMapAdd, bmapOpts, h, h2]
  | cons e rest ih =>
    rcases e with ⟨b0, e0⟩
    by_cases h0 : b0 = b
    · by_cases h1 : b0 = b' <;>
        by_cases h2 : b' = b <;>
        simp_all [breakfastMapAdd, bmapOpts]
    · by_cases h1 : b0 = b'
      · have h2 : ¬ b' = b := fun hc => h0 (h1.trans hc)
        simp [breakfastMapAdd, h0, bmapOpts, h1, h2]
      · simp [breakfastMapAdd, h0, bmapOpts, h1, ih]

theorem breakfastMapAdd_keys (m : BreakfastMap) (b : Nat) (q : Nat) (p : Rat)
    (o : List Nat) :
    (breakfastMapAdd m b q p o).map Prod.fst =
      if b ∈ m.map Prod.fst then m.map Prod.fst else m.map Prod.fst ++ [b] := by
  induction m with
  | nil => simp [breakfastMapAdd]
  | cons e rest ih =>
    rcases e with ⟨b0, e0⟩
    by_cases h0 : b0 = b
    · simp [breakfastMapAdd, h0]
    · have hbb : ¬ b = b0 := fun hc => h0 (Eq.symm hc)
      by_cases hk : b ∈ rest.map Prod.fst <;>
        simp [breakfastMapAdd, h0, ih, hbb, hk]

theorem mem_unionOptionIds (a n : List Nat) (x : Nat) :
    x ∈ unionOptionIds a n ↔ x ∈ a ∨ x ∈ n := by
  unfold unionOptionIds
  simp only [List.mem_append, List.mem_filter]
  constructor
  · rintro (hx | ⟨hx, _⟩)
    · exact Or.inl hx
    · exact Or.inr hx
  · rintro (hx | hx)
    · exact Or.inl hx
    · by_cases ha : x ∈ a
      · exact Or.inl ha
      · exact Or.inr ⟨hx, by simpa using ha⟩

theorem nodup_unionOptionIds (a n : List Nat) (ha : a.Nodup) (hn : n.Nodup) :
    (unionOptionIds a n).Nodup := by
  unfold unionOptionIds
  rw [List.nodup_append]
  refine ⟨ha, hn.filter _, ?_⟩
  intro x hx hmem
  rcases List.mem_filter.mp hmem with ⟨_, hnot⟩
  simp at hnot
  exact hnot hx

theorem verifyBreakfastLines_props (db : Db) (ls : List BreakfastLine) :
    ∀ (acc : Rat) (m : BreakfastMap) (t : Rat) (m' : BreakfastMap),
      verifyBreakfastLines db acc m ls = .ok (t, m') →
      (∀ b, bmapQty m' b = bmapQty m b +
        ((ls.filter (fun l => l.breakfast_id = b)).map (fun l => l.quantity)).sum) ∧
      (∀ b, bmapOpts m' b =
        (ls.filter (fun l => l.breakfast_id = b)).foldl
          (fun a l => unionOptionIds a l.option_ids) (bmapOpts m b)) ∧
      ((m.map Prod.fst).Nodup → (m'.map Prod.fst).Nodup) ∧
      (∀ b, b ∈ m'.map Prod.fst ↔
        b ∈ m.map Prod.fst ∨ b ∈ ls.map (fun l => l.breakfast_id)) := by
  induction ls with
  | nil =>
    intro acc m t m' h
    cases h
    exact ⟨fun b => by simp, fun b => by simp, fun hh => hh, fun b => by simp⟩
  | cons l rest ih =>
    intro acc m t m' h
    unfold verifyBreakfastLines at h
    split at h
    · cases h
    · rename_i expected hexp
      rcases ih _ _ _ _ h with ⟨hq, ho, hnd, hk⟩
      refine ⟨?_, ?_, ?_, ?_⟩
      · intro b
        rw [hq b, bmapQty_add]
        by_cases hb : l.breakfast_id = b
        · have hb2 : b = l.breakfast_id := hb.symm
          rw [List.filter_cons_of_pos (by simp [hb]), List.map_cons,
            List.sum_cons, if_pos hb2]
          omega
        · have hb2 : ¬ b = l.breakfast_id := fun hc => hb hc.symm
          rw [List.filter_cons_of_neg (by simp [hb]), if_neg hb2]
          omega
      · intro b
        rw [ho b, bmapOpts_add]
        by_cases hb : l.breakfast_id = b
        · have hb2 : b = l.breakfast_id := hb.symm
          rw [List.filter_cons_of_pos (by simp [hb]), List.foldl_cons,
            if_pos hb2]
        · have hb2 : ¬ b = l.breakfast_id := fun hc => hb hc.symm
          rw [List.filter_cons_of_neg (by simp [hb]), if_neg hb2]
      · intro hmnd
        refine hnd ?_
        rw [breakfastMapAdd_keys]
        by_cases hk2 : l.breakfast_id ∈ m.map Prod.fst
        · simpa [hk2] using hmnd
        · simp [hk2, List.nodup_append, hmnd]
      · intro b
        rw [hk b, breakfastMapAdd_keys]
        by_cases hk2 : l.breakfast_id ∈ m.map Prod.fst
        · by_cases hbl : b = l.breakfast_id
          · subst hbl
            simp [hk2]
          · simp only [if_pos hk2, List.map_cons, List.mem_cons]
            tauto
        · by_cases hbl : b = l.breakfast_id
          · subst hbl
            simp [hk2]
          · simp only [if_neg hk2, List.mem_append, List.map_cons,
              List.mem_cons, List.mem_singleton]
            tauto

theorem foldUnion_mem (ls : List (List Nat)) :
    ∀ (a : List Nat) (x : Nat),
      x ∈ ls.foldl unionOptionIds a ↔ x ∈ a ∨ ∃ l ∈ ls, x ∈ l := by
  induction ls with
  | nil => intro a x; simp
  | cons l rest ih =>
    intro a x
    rw [List.foldl_cons, ih, mem_unionOptionIds]
    constructor
    · rintro ((hx | hx) | ⟨l0, hl0, hx⟩)
      · exact Or.inl hx
      · exact Or.inr ⟨l, by simp, hx⟩
      · exact Or.inr ⟨l0, by simp [hl0], hx⟩
    · rintro (hx | ⟨l0, hl0, hx⟩)
      · exact Or.inl (Or.inl hx)
      · rcases List.mem_cons.mp hl0 with rfl | h0
        · exact Or.inl (Or.inr hx)
        · exact Or.inr ⟨l0, h0, hx⟩

theorem foldUnion_nodup (ls : List (List Nat)) :
    ∀ a : List Nat, (∀ l ∈ ls, l.Nodup) → a.Nodup →
      (ls.foldl unionOptionIds a).Nodup := by
  induction ls with
  | nil => intro a _ ha; exact ha
  | cons l rest ih =>
    intro a hls ha
    rw [List.foldl_cons]
    exact ih _ (fun l0 h0 => hls l0 (List.mem_cons_of_mem _ h0))
      (nodup_unionOptionIds a l ha (hls l (by simp)))

theorem insertMenuRows_spec (oid : Nat) :
    ∀ (db : Db) (ls : List MenuLine),
      (insertMenuRows oid db ls).order_items =
        db.order_items ++ menuRowsFrom oid db.nextOrderItemId ls ∧
      (insertMenuRows oid db ls).breakfast_order_options =
        db.breakfast_order_options ∧
      (insertMenuRows oid db ls).nextOrderItemId =
        db.nextOrderItemId + ls.length := by
  intro db ls
  induction ls generalizing db with
  | nil => exact ⟨by simp [insertMenuRows, menuRowsFrom], rfl, rfl⟩
  | cons l rest ih =>
    rcases ih ({ db with
      order_items := db.order_items ++
        [⟨db.nextOrderItemId, oid, some l.item_id, none, l.quantity,
          l.unit_price, (lineSupplementIds l).head?⟩],
      nextOrderItemId := db.nextOrderItemId + 1 }) with ⟨h1, h2, h3⟩
    refine ⟨?_, ?_, ?_⟩
    · show (insertMenuRows oid _ rest).order_items = _
      rw [h1]
      simp [menuRowsFrom]
    · show (insertMenuRows oid _ rest).breakfast_order_options = _
      rw [h2]
    · show (insertMenuRows oid _ rest).nextOrderItemId = _
      rw [h3]
      simp [menuRowsFrom]
      omega

theorem insertBreakfastRows_spec (oid : Nat) :
    ∀ (db : Db) (m : BreakfastMap),
      (insertBreakfastRows oid db m).order_items =
        db.order_items ++ breakfastRowsFrom oid db.nextOrderItemId m ∧
      (insertBreakfastRows oid db m).breakfast_order_options =
        db.breakfast_order_options ++ breakfastOptRowsFrom db.nextOrderItemId m := by
  intro db m
  induction m generalizing db with
  | nil =>
    exact ⟨by simp [insertBreakfastRows, breakfastRowsFrom],
      by simp [insertBreakfastRows, breakfastOptRowsFrom]⟩
  | cons e rest ih =>
    rcases e with ⟨b, e⟩
    rcases ih ({ db with
      order_items := db.order_items ++
        [⟨db.nextOrderItemId, oid, none, some b, e.quantity, e.unit_price, none⟩],
      breakfast_order_options := db.breakfast_order_options ++
        e.option_ids.map (fun o => ⟨db.nextOrderItemId, o⟩),
      nextOrderItemId := db.nextOrderItemId + 1 }) with ⟨h1, h2⟩
    refine ⟨?_, ?_⟩
    · show (insertBreakfastRows oid _ rest).order_items = _
      rw [h1]
      simp [breakfastRowsFrom]
    · show (insertBreakfastRows oid _ rest).breakfast_order_options = _
      rw [h2]
      simp [breakfastOptRowsFrom]

theorem runOrderTransaction_ok_rows (now : Int) (db0 : Db) (req : OrderRequest)
    (sid : String) (fps : List Fingerprint) (total : Rat) (bmap : BreakfastMap)
    (eff : Option Nat) (oid : Nat) (db' : Db)
    (h : runOrderTransaction now db0 req sid fps total bmap eff = .ok (oid, db')) :
    oid = db0.nextOrderId ∧
    db'.order_items = db0.order_items ++
      menuRowsFrom db0.nextOrderId db0.nextOrderItemId req.items ++
      breakfastRowsFrom db0.nextOrderId (db0.nextOrderItemId + req.items.length)
        bmap ∧
    db'.breakfast_order_options = db0.breakfast_order_options ++
      breakfastOptRowsFrom (db0.nextOrderItemId + req.items.length) bmap := by
  simp only [runOrderTransaction] at h
  split at h
  · split at h
    · cases h
    · rename_i db5 hded
      cases h
      have hframe := deductUsage_frame _ _ _ _ hded
      refine ⟨rfl, ?_, ?_⟩
      · show db5.order_items = _
        rw [hframe, (insertBreakfastRows_spec db0.nextOrderId _ bmap).1,
          (insertMenuRows_spec db0.nextOrderId _ req.items).1,
          (insertMenuRows_spec db0.nextOrderId _ req.items).2.2]
      · show db5.breakfast_order_options = _
        rw [hframe, (insertBreakfastRows_spec db0.nextOrderId _ bmap).2,
          (insertMenuRows_spec db0.nextOrderId _ req.items).2.1,
          (insertMenuRows_spec db0.nextOrderId _ req.items).2.2]
  · cases h
    refine ⟨rfl, ?_, ?_⟩
    · rw [show (∀ (d : Db) (n : List NotificationRow),
          ({ d with notifications := n } : Db).order_items = d.order_items)
          from fun _ _ => rfl,
        (insertBreakfastRows_spec db0.nextOrderId _ bmap).1,
        (insertMenuRows_spec db0.nextOrderId _ req.items).1,
        (insertMenuRows_spec db0.nextOrderId _ req.items).2.2]
    · rw [show (∀ (d : Db) (n : List NotificationRow),
          ({ d with notifications := n } : Db).breakfast_order_options =
            d.breakfast_order_options) from fun _ _ => rfl,
        (insertBreakfastRows_spec db0.nextOrderId _ bmap).2,
        (insertMenuRows_spec db0.nextOrderId _ req.items).2.1,
        (insertMenuRows_spec db0.nextOrderId _ req.items).2.2]

theorem dbAfterPurge_sameCore (db : Db) (now : Int) (req : OrderRequest) :
    sameCore db (dbAfterPurge db now req) := by
  unfold dbAfterPurge
  split
  · exact sameCore_refl db
  · exact purge_sameCore db now

theorem foldl_union_map (ls : List BreakfastLine) :
    ∀ a : List Nat,
      ls.foldl (fun a l => unionOptionIds a l.option_ids) a =
        (ls.map (fun l => l.option_ids)).foldl unionOptionIds a := by
  induction ls with
  | nil => intro a; rfl
  | cons l rest ih =>
    intro a
    rw [List.foldl_cons, List.map_cons, List.foldl_cons, ih]

/-- C9: on a successful `POST /orders` whose breakfast cart lines may repeat
a breakfast, the rows persisted by the transaction contain exactly one
`order_items` row per distinct submitted breakfast id (`breakfastRowsFrom`
lays down one row per `breakfastMap` entry, the map's keys are duplicate-free
and are exactly the submitted breakfast ids), the entry's quantity is the sum
of the matching lines' quantities, and its `breakfast_order_options` rows
carry the duplicate-free union of the matching lines' option ids — the
accumulated option list is duplicate-free provided each submitted line's own
`option_ids` list is duplicate-free. -/
theorem C9_breakfast_coalescing (now : Int) (guard : List GuardKey) (db : Db)
    (req : OrderRequest) (oid : Nat) (db' : Db) (g' : List GuardKey)
    (h : createOrder now guard db req = (.ok oid, db', g'))
    (hopts : ∀ l ∈ req.breakfastItems, l.option_ids.Nodup) :
    ∃ (bmap : BreakfastMap) (iid0 : Nat),
      db'.order_items = db.order_items ++
        menuRowsFrom oid iid0 req.items ++
        breakfastRowsFrom oid (iid0 + req.items.length) bmap ∧
      db'.breakfast_order_options = db.breakfast_order_options ++
        breakfastOptRowsFrom (iid0 + req.items.length) bmap ∧
      (bmap.map Prod.fst).Nodup ∧
      (∀ b, b ∈ bmap.map Prod.fst ↔
        b ∈ req.breakfastItems.map (fun l => l.breakfast_id)) ∧
      (∀ b, bmapQty bmap b =
        ((req.breakfastItems.filter (fun l => l.breakfast_id = b)).map
          (fun l => l.quantity)).sum) ∧
      (∀ b, (bmapOpts bmap b).Nodup) ∧
      (∀ b x, x ∈ bmapOpts bmap b ↔
        ∃ l ∈ req.breakfastItems, l.breakfast_id = b ∧ x ∈ l.option_ids) := by
  obtain ⟨sid, itemsTotal, baseTotal, bmap, eff, db2, _, _, hbreak, htab,
    htrans, _⟩ := createOrder_ok_state now guard db req oid db' g' h
  obtain ⟨hq, ho, hnd, hk⟩ :=
    verifyBreakfastLines_props (dbAfterPurge db now req) req.breakfastItems
      itemsTotal [] baseTotal bmap hbreak
  obtain ⟨hoid, hoi, hboo⟩ := runOrderTransaction_ok_rows now db2 req sid
    (requestFingerprints req) (finalTotal db2 now req baseTotal) bmap eff oid
    db' htrans
  have hcore : sameCore db db2 :=
    sameCore_trans (dbAfterPurge_sameCore db now req)
      (tableStep_sameCore _ _ _ _ _ htab)
  refine ⟨bmap, db2.nextOrderItemId, ?_, ?_, ?_, ?_, ?_, ?_, ?_⟩
  · rw [hoi, hcore.2.1, hoid]
  · rw [hboo, hcore.2.2.2.2.1]
  · exact hnd (by simp)
  · intro b
    rw [hk b]
    simp
  · intro b
    rw [hq b]
    simp [bmapQty]
  · intro b
    rw [ho b, foldl_union_map]
    refine foldUnion_nodup _ _ ?_ ?_
    · intro l0 h0
      obtain ⟨l1, h1, rfl⟩ := List.mem_map.mp h0
      exact hopts l1 (List.mem_of_mem_filter h1)
    · exact List.nodup_nil
  · intro b x
    rw [ho b, foldl_union_map, foldUnion_mem]
    constructor
    · rintro (hx | ⟨l0, h0, hx⟩)
      · exact absurd hx (by simp [bmapOpts])
      · obtain ⟨l1, h1, rfl⟩ := List.mem_map.mp h0
        refine ⟨l1, List.mem_of_mem_filter h1, ?_, hx⟩
        have := (List.mem_filter.mp h1).2
        simpa using this
    · rintro ⟨l1, h1, hb, hx⟩
      exact Or.inr ⟨l1.option_ids,
        List.mem_map.mpr ⟨l1, List.mem_filter.mpr ⟨h1, by simp [hb]⟩, rfl⟩, hx⟩

theorem C1_approve_idempotent_witness :
    approveOrder true w1Db2 1 = (.error .alreadyApproved, w1Db2) :=
  (C1_approve_idempotent w1Db 1 w1Db2 rfl).1.1

theorem C10_put_approved_no_stock_effect_witness :
    ∃ db', putOrder true w1Db 1 1 = (.ok (), db') ∧
      (∀ o' ∈ db'.orders, o'.id = 1 →
        o'.approved = true ∧ o'.status = "preparing") ∧
      db'.ingredients = w1Db.ingredients ∧
      db'.stock_transactions = w1Db.stock_transactions ∧
      ∃ db'', putOrder true db' 1 1 = (.ok (), db'') ∧
        db''.ingredients = w1Db.ingredients ∧
        db''.stock_transactions = w1Db.stock_transactions ∧
        (∀ o' ∈ db''.orders, o'.id = 1 →
          o'.approved = true ∧ o'.status = "preparing") :=
  C10_put_approved_no_stock_effect w1Db 1 w1Order rfl

theorem C3_cancel_restoration_bounded_witness :
    (∃ db₂, cancelOrder true w1Db2 1 true = (.ok (), db₂) ∧
      db₂.ingredients = w1Db.ingredients ∧
      db₂.stock_transactions = w1Db2.stock_transactions ++
        (computeIngredientUsageApprove w1Db (orderItemsOf w1Db 1)
          (breakfastOptionsOf w1Db 1)).map
          (fun p => (⟨p.1, p.2, "addition", some 1,
            "Order cancellation stock restoration"⟩ : StockTransactionRow))) ∧
    (∀ (db0 : Db) (o : OrderRow), findOrder db0 1 = some o →
      o.status ≠ "cancelled" → o.approved = true →
      hasRestoration db0 1 = true →
      cancelOrder true db0 1 true = (.error .alreadyRestored, db0)) :=
  C3_cancel_restoration_bounded w1Db 1 w1Db2 (by simp [w1Db]) rfl rfl

theorem C5_menu_price_verification_witness :
    verifyMenuLine w5Db w5Line = .ok ((menuLineBase w5Item +
      ((supplementRowsFor w5Db w5Line.item_id (lineSupplementIds w5Line)).map
        (fun r => r.additional_price)).sum) * w5Line.quantity) :=
  ((C5_menu_price_verification w5Db w5Line w5Item (by decide) (by decide)
    (by norm_num [w5Line]) rfl rfl rfl).2
    (by norm_num [w5Line, w5Item, w5Db, menuLineBase, supplementRowsFor,
      lineSupplementIds])).1

theorem C8_required_group_enforcement_witness :
    verifyBreakfastLine w8Db w8Line = .error (.missingRequiredGroup
      w8Line.breakfast_id (((fetchGroups w8Db w8Line.breakfast_id).filter
        (fun g => g.is_required)).map groupTitle)) :=
  (C8_required_group_enforcement w8Db w8Line w8Bf (by decide) (by decide)
    (by norm_num [w8Line]) rfl rfl).1 rfl (by decide)

theorem C6_promotion_overlay_witness :
    finalTotal exDb6 0 exReq6 10 =
      promoRecompute exDb6 exPromo6 exReq6.items exReq6.breakfastItems :=
  (C6_promotion_overlay exDb6 0 exReq6 10 5 exPromo6 rfl
    (by simp [findActivePromotion, exDb6, exPromo6])).1

theorem C7_rejection_core_frame_witness :
    sameCore exDb7 (createOrder 0 [] exDb7 w7Req).2.1 :=
  C7_rejection_core_frame 0 [] exDb7 w7Req .invalidDevice exDb7 [] rfl

theorem C9_breakfast_coalescing_witness :
    ∃ (bmap : BreakfastMap) (iid0 : Nat),
      w9DbOut.order_items = exDb6.order_items ++
        menuRowsFrom 1 iid0 exReq6.items ++
        breakfastRowsFrom 1 (iid0 + exReq6.items.length) bmap ∧
      w9DbOut.breakfast_order_options = exDb6.breakfast_order_options ++
        breakfastOptRowsFrom (iid0 + exReq6.items.length) bmap ∧
      (bmap.map Prod.fst).Nodup ∧
      (∀ b, b ∈ bmap.map Prod.fst ↔
        b ∈ exReq6.breakfastItems.map (fun l => l.breakfast_id)) ∧
      (∀ b, bmapQty bmap b =
        ((exReq6.breakfastItems.filter (fun l => l.breakfast_id = b)).map
          (fun l => l.quantity)).sum) ∧
      (∀ b, (bmapOpts bmap b).Nodup) ∧
      (∀ b x, x ∈ bmapOpts bmap b ↔
        ∃ l ∈ exReq6.breakfastItems, l.breakfast_id = b ∧
          x ∈ l.option_ids) := by
  have huuid : isUuidFormat "123e4567-e89b-12d3-a456-426614174000" = true := by
    decide
  have hblank : isBlank "s1" = false := by decide
  have hd1 : ("123e4567-e89b-12d3-a456-426614174000" = "unknown") = False := by
    simp
  have hd2 : ("123e4567-e89b-12d3-a456-426614174000" = "") = False := by simp
  have e1 : ((10 : Rat) ≤ 0) = False := by norm_num
  have e2 : ((10 : Rat) + 1 / 100 < 10) = False := by norm_num
  have e3 : ((10 : Rat) > 10) = False := by norm_num
  have e4 : (|(10 : Rat) - 10| > 1 / 100) = False := by norm_num
  have e5 : ((100 : Rat) < 0) = False := by norm_num
  have h1 : (createOrder 0 [] exDb6 exReq6).1 = .ok 1 := by
    simp [createOrder, dbAfterPurge, purgeDeviceLimits, recentCount,
      requestFingerprints, requestGuardKey, verifyMenuLines,
      verifyBreakfastLines, verifyBreakfastLine, findBreakfast, fetchGroups,
      breakfastMapAdd, unionOptionIds, tableStep, finalTotal,
      findActivePromotion, promoRecompute, promoBreakfastLinePrice,
      runOrderTransaction, huuid, hblank, hd1, hd2, e1, e2, e3, e4, e5,
      exDb6, exReq6, exPromo6]
  have h : createOrder 0 [] exDb6 exReq6 = (.ok 1,
      (createOrder 0 [] exDb6 exReq6).2.1,
      (createOrder 0 [] exDb6 exReq6).2.2) := by
    rw [← h1]
  exact C9_breakfast_coalescing 0 [] exDb6 exReq6 1 _ _ h (by simp [exReq6])

end LaCoupole
